import Mathlib

/-!
# Verification of the sendai-bus-map-v2 schedule engine

Shallow embedding of the computational core of the repository:
the Calendar Resolver (`isServiceRunningToday`, Go and TypeScript copies),
the Position Interpolator (`calculateBusPosition` in Go,
`calculateBusPos` in TypeScript), the Vehicle Locator
(`calculateAllBusPositions`, `calculateBusPositionsInBounds`),
the trip-detail and stop-timetable endpoint handlers, and the
client-side arrival aggregation in `BusPanel.tsx`.

Modelling conventions:
* JavaScript objects and Go maps are modelled as association lists whose
  lookup returns the first matching entry; Go map iteration order is
  unspecified in the source, the list order stands in for one iteration
  order.
* Machine numbers (`int`, JS `number` holding integral values) are
  modelled as `Int`; the float ratio arithmetic of the interpolator is
  modelled exactly over `Rat`.
* A JavaScript `NaN` produced by `Number(...)` on a malformed string is
  modelled as `none` of `Option Int`; every comparison against it is
  false, exactly as for `NaN`.
* Reading past the end of an array yields `undefined` in JavaScript and
  is a run-time error in Go; both are modelled as an absent result.
-/

namespace SendaiBusMap

/-- First-match association-list lookup (JS object / Go map read). -/
def lookupA {α : Type} (l : List (String × α)) (k : String) : Option α :=
  (l.find? (fun p => p.1 = k)).map Prod.snd

/-- Array read at a possibly negative index: out-of-range reads
(JS `undefined`, Go run-time error) are modelled as an absent result. -/
def listIdx {α : Type} (l : List α) (i : Int) : Option α :=
  if 0 ≤ i then l.get? i.toNat else none

/-- The pipe separator of pattern keys. -/
def pipeSep : String := "|"

/-- One stop-time entry of a trip (`TripStop` in Go, `TripStop` in types.ts). -/
structure TripStop where
  time : String
  stop_id : String
deriving DecidableEq, Repr

/-- One trip (`TripInfo`). -/
structure TripInfo where
  headsign : String
  service_id : String
  office_id : String
  via : String
  stops : List TripStop
deriving DecidableEq, Repr

/-- Geometry of one route pattern (`ShapeData`): coordinates are
(lng, lat) pairs, `stop_indices` points each pattern stop into the
coordinate array. -/
structure ShapeData where
  coordinates : List (Rat × Rat)
  stop_indices : List Int
deriving DecidableEq, Repr

/-- Weekly calendar of one service (`CalendarEntry`); `endd` models the
source field named `end` (a reserved word in Lean). -/
structure CalendarEntry where
  days : List String
  start : String
  endd : String
deriving DecidableEq, Repr

/-- One calendar exception (`CalendarDateException`). -/
structure CalendarDateException where
  service_id : String
  date : String
  exception_type : String
deriving DecidableEq, Repr

/-- One route (`RouteInfo`). -/
structure RouteInfo where
  short_name : String
  color : String
deriving DecidableEq, Repr

/-- One stop (`StopInfo`). -/
structure StopInfo where
  name : String
  yomi : String
  lat : Rat
  lng : Rat
  platform : String
deriving DecidableEq, Repr

/-- One emitted vehicle position (`BusPosition`); `position` is (lng, lat). -/
structure BusPosition where
  trip_id : String
  route_id : String
  route_name : String
  headsign : String
  position : Rat × Rat
  color : String
deriving DecidableEq, Repr

/-- One arrival row built by `BusPanel.tsx`. -/
structure Arrival where
  time : String
  route_id : String
  trip_id : String
  headsign : String
  via : String
  platform : String
  actual_stop_id : String
  is_past : Bool
deriving DecidableEq, Repr

/-- The trip-detail response (`TripDetailResponse`); the `shape` field
models the Go `*ShapeData` pointer: `none` is a nil pointer (JSON null). -/
structure TripDetailResponse where
  trip_id : String
  route_id : String
  route_name : String
  route_color : String
  trip : TripInfo
  stops : List (String × StopInfo)
  shape : Option ShapeData
  office_name : String
deriving DecidableEq, Repr

/-- The stop-timetable response (`StopTimetableResponse`). -/
structure StopTimetableResponse where
  stop_id : String
  stop_name : String
  timetables : List (String × List (String × TripInfo))
deriving DecidableEq, Repr

/-! ## String primitives

The built-in `String.splitOn`, `String.toNat?` and the string order do
not reduce inside the kernel, so the few string operations the engine
needs are given directly as structural recursions over the character
list.  For the ASCII data of this snapshot they agree with Go's
byte-wise and JavaScript's code-unit-wise operations. -/

/-- Accumulator-style splitting on a single separator character;
`strings.Split` in Go and `String.prototype.split` in JS for a
one-character separator. -/
def splitFieldsAux (c : Char) : List Char → List Char → List String
  | [], acc => [acc.reverse.asString]
  | x :: xs, acc =>
    if x = c then acc.reverse.asString :: splitFieldsAux c xs []
    else splitFieldsAux c xs (x :: acc)

/-- Split a string on a separator character. -/
def splitOnChar (c : Char) (s : String) : List String :=
  splitFieldsAux c s.toList []

/-- Parse a non-empty all-digit string; anything else has no value. -/
def digitsToNat? (s : String) : Option Nat :=
  if s ≠ "" ∧ s.toList.all Char.isDigit then
    some (s.toList.foldl (fun n c => 10 * n + (c.toNat - 48)) 0)
  else none

/-- Byte-wise (for ASCII: code-point-wise) strict string order, the
order Go's `<` and JS's `<` use on these strings. -/
def charListLt : List Char → List Char → Bool
  | [], [] => false
  | [], _ :: _ => true
  | _ :: _, [] => false
  | x :: xs, y :: ys => if x = y then charListLt xs ys else decide (x < y)

/-- Strict string order. -/
def strLt (a b : String) : Bool := charListLt a.toList b.toList

/-- Non-strict string order. -/
def strLe (a b : String) : Bool := strLt a b || a = b

/-! ## Number and time parsing -/

/-- Go `strconv.Atoi` with its error ignored, as the source does: a
string of digits parses to its value, anything else yields 0.  (Signs
and overflow do not occur in the schedule data and are not modelled.) -/
def atoiGo (s : String) : Int :=
  ((digitsToNat? s).getD 0 : Nat)

/-- JavaScript `Number(...)` on the strings reachable here: the empty
string is 0, a digit string is its value, anything else is `NaN`
(modelled as `none`). -/
def jsNumber (s : String) : Option Int :=
  if s = "" then some 0
  else (digitsToNat? s).map (fun n => (n : Int))

/-- Go `timeToSec` (server, utils.ts lines 335-347 of the merged file). -/
def timeToSecGo (t : String) : Int :=
  let parts := splitOnChar ':' t
  if parts.length < 2 then 0
  else
    let hours := atoiGo (parts.getD 0 (""))
    let minutes := atoiGo (parts.getD 1 (""))
    let seconds := if parts.length ≥ 3 then atoiGo (parts.getD 2 ("")) else 0
    hours * 3600 + minutes * 60 + seconds

/-- TypeScript `timeToSec` (client utils.ts lines 6-10): `none` is `NaN`.
`parts[2] || 0` turns an absent or `NaN` (or zero) third field into 0. -/
def timeToSecTs (t : String) : Option Int :=
  if t = "" then some 0
  else
    let parts := splitOnChar ':' t
    let p0 := jsNumber (parts.getD 0 (""))
    let p1 := match parts.get? 1 with
      | none => none
      | some s => jsNumber s
    let p2 := match parts.get? 2 with
      | none => some (0 : Int)
      | some s => match jsNumber s with
        | none => some 0
        | some v => some v
    match p0, p1, p2 with
    | some a, some b, some c => some (a * 3600 + b * 60 + c)
    | _, _, _ => none

/-! ## Civil dates

Both resolvers only ever use differences of day numbers, so the day
number may be taken relative to any fixed origin. -/

/-- Leap year rule shared by Go `time` and ECMAScript. -/
def isLeapYear (y : Int) : Bool :=
  (y % 4 = 0 ∧ y % 100 ≠ 0) ∨ y % 400 = 0

/-- Length of month `m` (1-12) in year `y`. -/
def daysInMonth (y m : Int) : Int :=
  if m = 2 then (if isLeapYear y then 29 else 28)
  else if m = 4 ∨ m = 6 ∨ m = 9 ∨ m = 11 then 30
  else 31

/-- Day number of the first day of 0-based month `mn` (0-11) of year
`ym`, counted from a fixed origin; standard civil-calendar formula. -/
def monthFirstDayNumber (ym mn : Int) : Int :=
  let y0 := if mn ≤ 1 then ym - 1 else ym
  let m0 := if mn ≤ 1 then mn + 10 else mn - 2
  365 * y0 + y0.fdiv 4 - y0.fdiv 100 + y0.fdiv 400 + (153 * m0 + 2).fdiv 5

/-- ECMAScript `MakeDay`: months outside 0-11 and days outside the month
are normalized linearly, exactly as `new Date(y, m, d)` does. -/
def jsMakeDay (y m d : Int) : Int :=
  monthFirstDayNumber (y + m.fdiv 12) (m - 12 * (m.fdiv 12)) + d - 1

/-- Day number of the civil date (y, m, d) with 1-based month. -/
def civilDayNumber (y m d : Int) : Int :=
  jsMakeDay y (m - 1) d

/-- The year, month, day fields of an 8-character YYYYMMDD string. -/
def ymdFields (s : String) : Int × Int × Int :=
  (atoiGo ((s.toList.take 4).asString),
   atoiGo ((s.toList.drop 4).take 2).asString,
   atoiGo ((s.toList.drop 6).take 2).asString)

/-- A date string Go `time.Parse ("20060102", s)` accepts: 8 digits with
a real month and day. -/
def goValidDate (s : String) : Prop :=
  s.length = 8 ∧ s.toList.all Char.isDigit ∧
    1 ≤ (ymdFields s).2.1 ∧ (ymdFields s).2.1 ≤ 12 ∧
    1 ≤ (ymdFields s).2.2 ∧ (ymdFields s).2.2 ≤ daysInMonth (ymdFields s).1 (ymdFields s).2.1

instance (s : String) : Decidable (goValidDate s) := by
  unfold goValidDate; infer_instance

/-- Day number of a YYYYMMDD string, used to state the calendar claims. -/
def ymdDayNumber (s : String) : Int :=
  civilDayNumber (ymdFields s).1 (ymdFields s).2.1 (ymdFields s).2.2

/-- Go `time.Parse` of a YYYYMMDD string as used in the fallback: a valid
date parses to itself, an invalid one leaves the zero `time.Time`
(January 1 of year 1), whose error the source discards. -/
def goDateDays (s : String) : Int :=
  if goValidDate s then ymdDayNumber s else civilDayNumber 1 1 1

/-- JS `s.slice (a, b)` for `0 ≤ a ≤ b`. -/
def sliceJs (s : String) (a b : Nat) : String :=
  ((s.toList.drop a).take (b - a)).asString

/-- Day number computed by the TypeScript fallback
(`new Date (Number (s.slice (0,4)), Number (s.slice (4,6)) - 1, Number (s.slice (6,8)))`),
including the ECMAScript 1900 offset for two-digit years; `none` models
an invalid date (`NaN` time value). -/
def tsDateDays (s : String) : Option Int :=
  match jsNumber (sliceJs s 0 4), jsNumber (sliceJs s 4 6), jsNumber (sliceJs s 6 8) with
  | some y, some m, some d =>
      let yy := if 0 ≤ y ∧ y ≤ 99 then y + 1900 else y
      some (jsMakeDay yy (m - 1) d)
  | _, _, _ => none

/-! ## Calendar resolver -/

/-- The GTFS weekday index used by both copies: host weekday
(0 = Sunday .. 6 = Saturday) remapped to Monday = 0 .. Sunday = 6. -/
def gtfsDayIdx (weekday : Nat) : Nat := (weekday + 6) % 7

/-- Go `isServiceRunningToday` (server, lines 350-388): exception check,
then weekly pattern inside [start, end], then the ≥ 20 day fallback.
`ymd` and `weekday` stand for the values the source reads from the
clock. -/
def isServiceRunningTodayGo (serviceID ymd : String) (weekday : Nat)
    (calendar : List (String × CalendarEntry))
    (exceptions : List CalendarDateException) : Bool :=
  match exceptions.find? (fun e => e.date = ymd ∧ e.service_id = serviceID) with
  | some e => e.exception_type = "1"
  | none =>
    match lookupA calendar serviceID with
    | none => false
    | some cal =>
      let idx := gtfsDayIdx weekday
      if (strLe cal.start ymd ∧ strLe ymd cal.endd) ∧ idx < cal.days.length then
        cal.days.getD idx ("") = "1"
      else
        let durationDays := goDateDays cal.endd - goDateDays cal.start
        if 20 ≤ durationDays ∧ idx < cal.days.length then
          cal.days.getD idx ("") = "1"
        else false

/-- TypeScript `isServiceRunningToday` (client utils.ts lines 20-64).
Reading `cal.days` past its end gives `undefined`, which compares
unequal to a string; `getD` with default `""` models that. A `NaN`
duration (invalid date characters) fails the `>= 20` test. -/
def isServiceRunningTodayTs (serviceId ymd : String) (weekday : Nat)
    (calendar : List (String × CalendarEntry))
    (exceptions : List CalendarDateException) : Bool :=
  match exceptions.find? (fun e => e.date = ymd ∧ e.service_id = serviceId) with
  | some e => e.exception_type = "1"
  | none =>
    match lookupA calendar serviceId with
    | none => false
    | some cal =>
      let idx := gtfsDayIdx weekday
      if strLe cal.start ymd ∧ strLe ymd cal.endd then
        cal.days.getD idx ("") = "1"
      else
        match tsDateDays cal.start, tsDateDays cal.endd with
        | some sd, some ed =>
          if 20 ≤ ed - sd then cal.days.getD idx ("") = "1" else false
        | _, _ => false

/-! ## Position interpolator -/

/-- The target index
`math.Floor (indices[i] + (indices[i+1] - indices[i]) * ((now - s1) / (s2 - s1)))`
computed exactly: whenever the divisor `d` is positive — which holds at
every selected interval since `s1 <= now < s2` — this floor division
equals the integer floor of the ideal real-arithmetic expression
(theorem `floorTarget_eq_floor` below). -/
def floorTarget (a b n d : Int) : Int :=
  a + ((b - a) * n).fdiv d

/-- Pattern key of a stop sequence: pipe-joined stop ids. -/
def patternKeyOf (stops : List TripStop) : String :=
  String.intercalate pipeSep (stops.map (fun s => s.stop_id))

/-- The interval loop of the Go `calculateBusPosition` (lines 401-413):
walks consecutive stop pairs, dropping one leading stop index per step so
that the head two indices are always `indices[i]` and `indices[i+1]`. -/
def busLoopGo (nowSec : Int) (coords : List (Rat × Rat)) :
    List TripStop → List Int → Option (Rat × Rat)
  | x :: y :: rest, idxs =>
    let s1 := timeToSecGo x.time
    let s2 := timeToSecGo y.time
    if s1 ≤ nowSec ∧ nowSec < s2 then
      match idxs with
      | a :: b :: _ =>
        let target : Int := floorTarget a b (nowSec - s1) (s2 - s1)
        let clamped : Int :=
          if (coords.length : Int) ≤ target then (coords.length : Int) - 1 else target
        listIdx coords clamped
      | _ => none
    else busLoopGo nowSec coords (y :: rest) idxs.tail
  | _, _ => none

/-- Go `calculateBusPosition` (server, lines 391-416): shape lookup by
the caller-supplied pattern key, empty-shape guard, then the loop. -/
def calculateBusPosition (trip : TripInfo) (nowSec : Int) (patternKey : String)
    (shapes : List (String × ShapeData)) : Option (Rat × Rat) :=
  match lookupA shapes patternKey with
  | none => none
  | some shape =>
    if shape.coordinates.length = 0 ∨ shape.stop_indices.length = 0 then none
    else busLoopGo nowSec shape.coordinates trip.stops shape.stop_indices

/-- The interval loop of the TypeScript `calculateBusPos` (lines 80-91).
A `NaN` stop time (malformed string) fails both comparisons, so the loop
moves on; an absent stop index makes the target index `NaN` and the
coordinate read `undefined`. -/
def busLoopTs (nowSec : Int) (coords : List (Rat × Rat)) :
    List TripStop → List Int → Option (Rat × Rat)
  | x :: y :: rest, idxs =>
    match timeToSecTs x.time, timeToSecTs y.time with
    | some s1, some s2 =>
      if s1 ≤ nowSec ∧ nowSec < s2 then
        match idxs with
        | a :: b :: _ =>
          let target : Int := floorTarget a b (nowSec - s1) (s2 - s1)
          listIdx coords (min target ((coords.length : Int) - 1))
        | _ => none
      else busLoopTs nowSec coords (y :: rest) idxs.tail
    | _, _ => busLoopTs nowSec coords (y :: rest) idxs.tail
  | _, _ => none

/-- TypeScript `calculateBusPos` (client utils.ts lines 68-92): the
pattern key is built from the trip's stops; the null checks on
`coordinates` and `stop_indices` of the source are vacuous for present
(typed, non-null) data and impose no emptiness guard. -/
def calculateBusPos (stops : List TripStop) (nowSec : Int)
    (shapesData : List (String × ShapeData)) : Option (Rat × Rat) :=
  match lookupA shapesData (patternKeyOf stops) with
  | none => none
  | some shapeData => busLoopTs nowSec shapeData.coordinates stops shapeData.stop_indices

/-! ### Reference interpolator (from the specification) -/

/-- Modelled from the spec: the interval search of the Position
Interpolator — "walk consecutive stop-time pairs (s_i, s_i+1) of the
trip; find the pair where s_i <= now < s_i+1" — returning the position
of the first such pair together with its two times. -/
def refFindInterval (nowSec : Int) : List TripStop → Option (Nat × Int × Int)
  | x :: y :: rest =>
    let s1 := timeToSecGo x.time
    let s2 := timeToSecGo y.time
    if s1 ≤ nowSec ∧ nowSec < s2 then some (0, s1, s2)
    else (refFindInterval nowSec (y :: rest)).map (fun p => (p.1 + 1, p.2))
  | _ => none

/-- Modelled from the spec: `Interpolate (trip, nowSeconds, shape)` —
none when the shape is absent, has empty coordinates or stop indices, or
`now` falls outside every interval; otherwise the coordinate at
`floor (stopIndex_i + (stopIndex_i+1 - stopIndex_i) * ratio)` clamped to
the last valid coordinate index.  Stop indices are read positionally;
one that the shape does not provide gives no coordinate. -/
def interpolateRef (stops : List TripStop) (nowSec : Int)
    (shape : Option ShapeData) : Option (Rat × Rat) :=
  match shape with
  | none => none
  | some sh =>
    if sh.coordinates.length = 0 ∨ sh.stop_indices.length = 0 then none
    else
      match refFindInterval nowSec stops with
      | none => none
      | some (i, s1, s2) =>
        match sh.stop_indices.get? i, sh.stop_indices.get? (i + 1) with
        | some a, some b =>
          let target : Int := floorTarget a b (nowSec - s1) (s2 - s1)
          listIdx sh.coordinates (min target ((sh.coordinates.length : Int) - 1))
        | _, _ => none

/-! ### Division-guard instrumentation (for the safety claim)

The checked variants return `none` exactly when the source would divide
by a non-positive `s2 - s1` at the selected interval, and
`some result` otherwise. -/

/-- Go interval loop instrumented at the division. -/
def busLoopGoChecked (nowSec : Int) (coords : List (Rat × Rat)) :
    List TripStop → List Int → Option (Option (Rat × Rat))
  | x :: y :: rest, idxs =>
    let s1 := timeToSecGo x.time
    let s2 := timeToSecGo y.time
    if s1 ≤ nowSec ∧ nowSec < s2 then
      if s2 - s1 ≤ 0 then none
      else some (match idxs with
        | a :: b :: _ =>
          let target : Int := floorTarget a b (nowSec - s1) (s2 - s1)
          let clamped : Int :=
            if (coords.length : Int) ≤ target then (coords.length : Int) - 1 else target
          listIdx coords clamped
        | _ => none)
    else busLoopGoChecked nowSec coords (y :: rest) idxs.tail
  | _, _ => some none

/-- Go `calculateBusPosition` instrumented at the division. -/
def calculateBusPositionChecked (trip : TripInfo) (nowSec : Int) (patternKey : String)
    (shapes : List (String × ShapeData)) : Option (Option (Rat × Rat)) :=
  match lookupA shapes patternKey with
  | none => some none
  | some shape =>
    if shape.coordinates.length = 0 ∨ shape.stop_indices.length = 0 then some none
    else busLoopGoChecked nowSec shape.coordinates trip.stops shape.stop_indices

/-- TypeScript interval loop instrumented at the division. -/
def busLoopTsChecked (nowSec : Int) (coords : List (Rat × Rat)) :
    List TripStop → List Int → Option (Option (Rat × Rat))
  | x :: y :: rest, idxs =>
    match timeToSecTs x.time, timeToSecTs y.time with
    | some s1, some s2 =>
      if s1 ≤ nowSec ∧ nowSec < s2 then
        if s2 - s1 ≤ 0 then none
        else some (match idxs with
          | a :: b :: _ =>
            let target : Int := floorTarget a b (nowSec - s1) (s2 - s1)
            listIdx coords (min target ((coords.length : Int) - 1))
          | _ => none)
      else busLoopTsChecked nowSec coords (y :: rest) idxs.tail
    | _, _ => busLoopTsChecked nowSec coords (y :: rest) idxs.tail
  | _, _ => some none

/-- TypeScript `calculateBusPos` instrumented at the division. -/
def calculateBusPosChecked (stops : List TripStop) (nowSec : Int)
    (shapesData : List (String × ShapeData)) : Option (Option (Rat × Rat)) :=
  match lookupA shapesData (patternKeyOf stops) with
  | none => some none
  | some shapeData => busLoopTsChecked nowSec shapeData.coordinates stops shapeData.stop_indices

/-! ### Backing-index view (for the monotonicity claim) -/

/-- The unclamped target index the Go loop computes at the selected
interval. -/
def busIdxRawGo (nowSec : Int) : List TripStop → List Int → Option Int
  | x :: y :: rest, idxs =>
    let s1 := timeToSecGo x.time
    let s2 := timeToSecGo y.time
    if s1 ≤ nowSec ∧ nowSec < s2 then
      match idxs with
      | a :: b :: _ => some (floorTarget a b (nowSec - s1) (s2 - s1))
      | _ => none
    else busIdxRawGo nowSec (y :: rest) idxs.tail
  | _, _ => none

/-- The backing coordinate index of the interpolated position: the
target index clamped to the last valid coordinate index. -/
def busIdxGo (nowSec : Int) (stops : List TripStop) (idxs : List Int)
    (numCoords : Nat) : Option Int :=
  (busIdxRawGo nowSec stops idxs).map
    (fun t => if (numCoords : Int) ≤ t then (numCoords : Int) - 1 else t)

/-! ## Vehicle locator -/

/-- Default stop used only to read the guarded head/last accesses. -/
def dummyStop : TripStop := { time := "", stop_id := "" }

/-- Default route info: the Go zero value a missing map key yields. -/
def zeroRouteInfo : RouteInfo := { short_name := "", color := "" }

/-- The per-trip body of the Go `calculateAllBusPositions` loop
(lines 419-467): the three skip checks — service not running, fewer than
2 stops, now outside the operating window — then interpolation, then the
appended entry. -/
def emitAll (nowSec : Int) (ymd : String) (weekday : Nat)
    (shapes : List (String × ShapeData))
    (calendar : List (String × CalendarEntry))
    (exceptions : List CalendarDateException)
    (routes : List (String × RouteInfo))
    (rid : String) (tt : String × TripInfo) : Option BusPosition :=
  let trip := tt.2
  if ¬ isServiceRunningTodayGo trip.service_id ymd weekday calendar exceptions then none
  else if trip.stops.length < 2 then none
  else
    let startSec := timeToSecGo (trip.stops.headD dummyStop).time
    let endSec := timeToSecGo (trip.stops.getLastD dummyStop).time
    if startSec ≤ nowSec ∧ nowSec ≤ endSec then
      match calculateBusPosition trip nowSec (patternKeyOf trip.stops) shapes with
      | some pos =>
        let ri := (lookupA routes rid).getD zeroRouteInfo
        some { trip_id := tt.1, route_id := rid, route_name := ri.short_name,
               headsign := trip.headsign, position := pos, color := ri.color }
      | none => none
    else none

/-- Go `calculateAllBusPositions` (lines 419-467): one pass over all
routes and trips, one optional entry per trip. -/
def calculateAllBusPositions (nowSec : Int) (ymd : String) (weekday : Nat)
    (timetables : List (String × List (String × TripInfo)))
    (shapes : List (String × ShapeData))
    (calendar : List (String × CalendarEntry))
    (exceptions : List CalendarDateException)
    (routes : List (String × RouteInfo)) : List BusPosition :=
  timetables.flatMap (fun rt =>
    rt.2.filterMap (emitAll nowSec ymd weekday shapes calendar exceptions routes rt.1))

/-- The per-trip body of the Go `calculateBusPositionsInBounds` loop
(lines 470-523): as `emitAll`, and additionally the position —
(lng, lat) — must fall inside the box. -/
def emitInBounds (minLat maxLat minLng maxLng : Rat)
    (nowSec : Int) (ymd : String) (weekday : Nat)
    (shapes : List (String × ShapeData))
    (calendar : List (String × CalendarEntry))
    (exceptions : List CalendarDateException)
    (routes : List (String × RouteInfo))
    (rid : String) (tt : String × TripInfo) : Option BusPosition :=
  let trip := tt.2
  if ¬ isServiceRunningTodayGo trip.service_id ymd weekday calendar exceptions then none
  else if trip.stops.length < 2 then none
  else
    let startSec := timeToSecGo (trip.stops.headD dummyStop).time
    let endSec := timeToSecGo (trip.stops.getLastD dummyStop).time
    if startSec ≤ nowSec ∧ nowSec ≤ endSec then
      match calculateBusPosition trip nowSec (patternKeyOf trip.stops) shapes with
      | some pos =>
        if minLat ≤ pos.2 ∧ pos.2 ≤ maxLat ∧ minLng ≤ pos.1 ∧ pos.1 ≤ maxLng then
          let ri := (lookupA routes rid).getD zeroRouteInfo
          some { trip_id := tt.1, route_id := rid, route_name := ri.short_name,
                 headsign := trip.headsign, position := pos, color := ri.color }
        else none
      | none => none
    else none

/-- Go `calculateBusPositionsInBounds` (lines 470-523): one pass over
all routes and trips, restricted to a bounding box. -/
def calculateBusPositionsInBounds (minLat maxLat minLng maxLng : Rat)
    (nowSec : Int) (ymd : String) (weekday : Nat)
    (timetables : List (String × List (String × TripInfo)))
    (shapes : List (String × ShapeData))
    (calendar : List (String × CalendarEntry))
    (exceptions : List CalendarDateException)
    (routes : List (String × RouteInfo)) : List BusPosition :=
  timetables.flatMap (fun rt =>
    rt.2.filterMap
      (emitInBounds minLat maxLat minLng maxLng nowSec ymd weekday shapes
        calendar exceptions routes rt.1))

/-! ## Endpoint handlers -/

/-- The `GET /api/trips/:routeId/:tripId` handler (lines 635-688):
not-found (`none`) for an unknown route or trip id; otherwise the
response.  Note the shape: the source reads `shapesCache[patternKey]`
without the ok flag — a missing key yields the zero `ShapeData` — and
always stores the address of that local, so the `shape` pointer of the
response is never nil. -/
def getTripDetail (routeId tripId : String)
    (timetables : List (String × List (String × TripInfo)))
    (stops : List (String × StopInfo))
    (shapes : List (String × ShapeData))
    (routes : List (String × RouteInfo))
    (offices : List (String × String)) : Option TripDetailResponse :=
  match lookupA timetables routeId with
  | none => none
  | some routeTrips =>
    match lookupA routeTrips tripId with
    | none => none
    | some trip =>
      let tripStops := trip.stops.filterMap
        (fun ts => (lookupA stops ts.stop_id).map (fun s => (ts.stop_id, s)))
      let shape : ShapeData :=
        (lookupA shapes (patternKeyOf trip.stops)).getD { coordinates := [], stop_indices := [] }
      let ri := (lookupA routes routeId).getD zeroRouteInfo
      let officeName := (lookupA offices trip.office_id).getD ("")
      some { trip_id := tripId, route_id := routeId, route_name := ri.short_name,
             route_color := ri.color, trip := trip, stops := tripStops,
             shape := some shape, office_name := officeName }

/-- The `GET /api/stops/:stopId/timetable` handler (lines 691-726):
not-found (`none`) for an unknown stop id; otherwise the timetable
filtered to trips whose stop list contains the stop, a route appearing
only when it has at least one such trip. -/
def getStopTimetable (stopId : String)
    (stops : List (String × StopInfo))
    (timetables : List (String × List (String × TripInfo))) : Option StopTimetableResponse :=
  match lookupA stops stopId with
  | none => none
  | some stop =>
    let filtered := timetables.filterMap (fun rt =>
      let matching := rt.2.filter (fun tt => tt.2.stops.any (fun ts => ts.stop_id = stopId))
      if matching.isEmpty then none else some (rt.1, matching))
    some { stop_id := stopId, stop_name := stop.name, timetables := filtered }

/-! ## Client-side arrival aggregation (BusPanel.tsx, lines 125-157) -/

/-- The arrival row built for the first stop-time of `trip` whose stop
id is in the target set. -/
def mkArrival (routeId tripId : String) (trip : TripInfo) (st : TripStop)
    (stops : List (String × StopInfo)) (currentTime : String) : Arrival :=
  { time := st.time, route_id := routeId, trip_id := tripId,
    headsign := trip.headsign, via := trip.via,
    platform := ((lookupA stops st.stop_id).map (fun p => p.platform)).getD (""),
    actual_stop_id := st.stop_id,
    is_past := strLt st.time currentTime }

/-- The unsorted arrival list: for each trip whose service runs today,
`trip.stops.find (s => targetIds.includes (s.stop_id))` contributes at
most one row. -/
def collectArrivals (targetIds : List String) (currentTime ymd : String) (weekday : Nat)
    (stops : List (String × StopInfo))
    (timetables : List (String × List (String × TripInfo)))
    (calendar : List (String × CalendarEntry))
    (exceptions : List CalendarDateException) : List Arrival :=
  timetables.flatMap (fun rt =>
    rt.2.filterMap (fun tt =>
      if ¬ isServiceRunningTodayTs tt.2.service_id ymd weekday calendar exceptions then none
      else
        match tt.2.stops.find? (fun s => targetIds.contains s.stop_id) with
        | none => none
        | some st => some (mkArrival rt.1 tt.1 tt.2 st stops currentTime)))

/-- The arrival list of the stop panel: collected rows sorted by time
ascending (`localeCompare` on zero-padded HH:MM:SS strings coincides
with code-point order).  `Array.prototype.sort` is a stable comparison
sort, and for a total preorder the stable sorted sequence is unique, so
the stable `insertionSort` models it exactly. -/
def buildArrivals (targetIds : List String) (currentTime ymd : String) (weekday : Nat)
    (stops : List (String × StopInfo))
    (timetables : List (String × List (String × TripInfo)))
    (calendar : List (String × CalendarEntry))
    (exceptions : List CalendarDateException) : List Arrival :=
  List.insertionSort (fun a b => strLe a.time b.time = true)
    (collectArrivals targetIds currentTime ymd weekday stops timetables calendar exceptions)

/-- A stop-time string on which the TypeScript and the Go parser agree
by construction: empty, or at least two colon-separated fields whose
first three are digit-only (possibly empty). -/
def wellFormedTime (s : String) : Prop :=
  s = "" ∨ (2 ≤ (splitOnChar ':' s).length ∧
    ∀ p ∈ (splitOnChar ':' s).take 3, p.toList.all Char.isDigit = true)

instance (s : String) : Decidable (wellFormedTime s) := by
  unfold wellFormedTime; infer_instance

/-- A calendar date string both date parsers read identically: a real
8-digit date whose year is at least 100 (the ECMAScript Date constructor
shifts years 0-99 by 1900). -/
def validYmd (s : String) : Prop :=
  goValidDate s ∧ 100 ≤ (ymdFields s).1

instance (s : String) : Decidable (validYmd s) := by
  unfold validYmd; infer_instance

/-! ## General lemmas -/

/-- The integer floor division of `floorTarget` is exactly the floor of
the ideal real-arithmetic target-index expression of the source, for the
positive divisors at which the source evaluates it. -/
theorem floorTarget_eq_floor (a b n d : Int) (hd : 0 < d) :
    floorTarget a b n d =
      Int.floor ((a : Rat) + ((b : Rat) - (a : Rat)) * ((n : Rat) / (d : Rat))) := by
  have hq : ((b : Rat) - (a : Rat)) * ((n : Rat) / (d : Rat)) =
      (((b - a) * n : Int) : Rat) / (((d.toNat : Nat) : Int) : Rat) := by
    rw [Int.toNat_of_nonneg hd.le]; push_cast; ring
  rw [hq, Int.floor_int_add]
  have hfl : (((d.toNat : Nat) : Int) : Rat) = ((d.toNat : Nat) : Rat) := by push_cast; ring
  rw [hfl, Rat.floor_intCast_div_natCast, floorTarget]
  congr 1
  rw [Int.toNat_of_nonneg hd.le]
  exact Int.fdiv_eq_ediv _ hd.le

/-- A matching exception that is unique for its (service, date) pair is
the one the linear scan finds. -/
theorem find_exception_eq (exceptions : List CalendarDateException)
    (e : CalendarDateException) (ymd sid : String)
    (he : e ∈ exceptions) (hdate : e.date = ymd) (hsid : e.service_id = sid)
    (huniq : ∀ f ∈ exceptions, f.date = ymd → f.service_id = sid → f = e) :
    exceptions.find? (fun f => f.date = ymd ∧ f.service_id = sid) = some e := by
  cases h : exceptions.find? (fun f => f.date = ymd ∧ f.service_id = sid) with
  | none =>
    exfalso
    have hnone := List.find?_eq_none.mp h e he
    simp only [decide_eq_true_eq] at hnone
    exact hnone ⟨hdate, hsid⟩
  | some f =>
    have hmem := List.mem_of_find?_eq_some h
    have hpf := List.find?_some h
    simp only [decide_eq_true_eq] at hpf
    exact congrArg some (huniq f hmem hpf.1 hpf.2)

/-- No exception matches, so the linear scan finds nothing. -/
theorem find_exception_none (exceptions : List CalendarDateException) (ymd sid : String)
    (hnoexc : ∀ e ∈ exceptions, ¬ (e.date = ymd ∧ e.service_id = sid)) :
    exceptions.find? (fun f => f.date = ymd ∧ f.service_id = sid) = none := by
  apply List.find?_eq_none.mpr
  intro f hf
  simpa using hnoexc f hf

/-! ## C2: calendar exceptions override everything -/

/-- C2: for every service id and date, if a calendar exception exists
for that (serviceId, date) pair, IsServiceRunning — in both the Go and
the TypeScript copy — returns true if and only if the exception's type
is "1", regardless of the service's weekly flags and nominal date range. -/
theorem service_exception_overrides
    (sid ymd : String) (wd : Nat)
    (calendar : List (String × CalendarEntry))
    (exceptions : List CalendarDateException)
    (e : CalendarDateException)
    (he : e ∈ exceptions) (hdate : e.date = ymd) (hsid : e.service_id = sid)
    (huniq : ∀ f ∈ exceptions, f.date = ymd → f.service_id = sid → f = e) :
    (isServiceRunningTodayGo sid ymd wd calendar exceptions = true ↔
      e.exception_type = "1")
    ∧ (isServiceRunningTodayTs sid ymd wd calendar exceptions = true ↔
      e.exception_type = "1") := by
  have hf := find_exception_eq exceptions e ymd sid he hdate hsid huniq
  constructor
  · unfold isServiceRunningTodayGo
    rw [hf]
    simp
  · unfold isServiceRunningTodayTs
    rw [hf]
    simp

/-- Witness for C2: an exception of type "1" on a day whose weekly flag
is "0" still yields true. -/
theorem service_exception_overrides_witness :
    isServiceRunningTodayGo "S1" "20240103" 3
      [("S1", { days := ["0", "0", "0", "0", "0", "0", "0"],
                start := "20240101", endd := "20241231" })]
      [{ service_id := "S1", date := "20240103", exception_type := "1" }] = true :=
  ((service_exception_overrides "S1" "20240103" 3
      [("S1", { days := ["0", "0", "0", "0", "0", "0", "0"],
                start := "20240101", endd := "20241231" })]
      [{ service_id := "S1", date := "20240103", exception_type := "1" }]
      { service_id := "S1", date := "20240103", exception_type := "1" }
      (by decide) rfl rfl (by decide)).1).mpr rfl

/-! ## C3: weekly pattern, date range and the 20-day fallback -/

/-- C3: with no exception for the queried date, the Go resolver returns
false for a service without a calendar entry; returns the weekday flag
at GTFS index (weekday + 6) mod 7 when the date lies inside
[start, end]; and outside the range returns that flag exactly when the
span end - start is at least 20 days, else false. -/
theorem service_weekly_pattern_rules
    (sid ymd : String) (wd : Nat)
    (calendar : List (String × CalendarEntry))
    (exceptions : List CalendarDateException)
    (hnoexc : ∀ e ∈ exceptions, ¬ (e.date = ymd ∧ e.service_id = sid)) :
    (lookupA calendar sid = none →
      isServiceRunningTodayGo sid ymd wd calendar exceptions = false)
    ∧ (∀ cal, lookupA calendar sid = some cal → cal.days.length = 7 →
        (strLe cal.start ymd ∧ strLe ymd cal.endd) →
        (isServiceRunningTodayGo sid ymd wd calendar exceptions = true ↔
          cal.days.getD (gtfsDayIdx wd) ("") = "1"))
    ∧ (∀ cal, lookupA calendar sid = some cal → cal.days.length = 7 →
        ¬ (strLe cal.start ymd ∧ strLe ymd cal.endd) →
        goValidDate cal.start → goValidDate cal.endd →
        isServiceRunningTodayGo sid ymd wd calendar exceptions =
          if 20 ≤ ymdDayNumber cal.endd - ymdDayNumber cal.start
          then decide (cal.days.getD (gtfsDayIdx wd) ("") = "1")
          else false) := by
  have hf := find_exception_none exceptions ymd sid hnoexc
  have hidx : gtfsDayIdx wd < 7 := Nat.mod_lt _ (by omega)
  refine ⟨?_, ?_, ?_⟩
  · intro hnone
    unfold isServiceRunningTodayGo
    rw [hf, hnone]
  · intro cal hcal hdays hin
    unfold isServiceRunningTodayGo
    rw [hf, hcal]
    simp only
    rw [if_pos ⟨hin, by omega⟩]
    simp
  · intro cal hcal hdays hout hv1 hv2
    unfold isServiceRunningTodayGo
    rw [hf, hcal]
    simp only
    rw [if_neg (by tauto)]
    have hgo1 : goDateDays cal.start = ymdDayNumber cal.start := by
      unfold goDateDays; rw [if_pos hv1]
    have hgo2 : goDateDays cal.endd = ymdDayNumber cal.endd := by
      unfold goDateDays; rw [if_pos hv2]
    rw [hgo1, hgo2]
    by_cases hdur : 20 ≤ ymdDayNumber cal.endd - ymdDayNumber cal.start
    · rw [if_pos ⟨hdur, by omega⟩, if_pos hdur]
    · rw [if_neg (by tauto), if_neg hdur]

/-- Witness for C3: a calendar that expired more than 20 days after it
started still answers from the weekly pattern (here: Wednesday flag "1"
on a date outside the range). -/
theorem service_weekly_pattern_rules_witness :
    isServiceRunningTodayGo "S1" "20250108" 3
      [("S1", { days := ["0", "0", "1", "0", "0", "0", "0"],
                start := "20240101", endd := "20240601" })] [] =
      (if 20 ≤ ymdDayNumber "20240601" - ymdDayNumber "20240101"
       then decide ((["0", "0", "1", "0", "0", "0", "0"] : List String).getD (gtfsDayIdx 3) ("") = "1")
       else false) :=
  (service_weekly_pattern_rules "S1" "20250108" 3
      [("S1", { days := ["0", "0", "1", "0", "0", "0", "0"],
                start := "20240101", endd := "20240601" })] []
      (by decide)).2.2
    { days := ["0", "0", "1", "0", "0", "0", "0"],
      start := "20240101", endd := "20240601" }
    rfl rfl (by decide) (by decide) (by decide)

/-! ## C9: the interpolator never divides by zero -/

/-- The Go interval loop never reaches a division with non-positive
divisor: the instrumented loop always returns the plain loop's result. -/
theorem busLoopGoChecked_eq (nowSec : Int) (coords : List (Rat × Rat)) :
    ∀ (stops : List TripStop) (idxs : List Int),
      busLoopGoChecked nowSec coords stops idxs =
        some (busLoopGo nowSec coords stops idxs)
  | [], _ => rfl
  | [_], _ => rfl
  | x :: y :: rest, idxs => by
    unfold busLoopGoChecked busLoopGo
    by_cases h : timeToSecGo x.time ≤ nowSec ∧ nowSec < timeToSecGo y.time
    · rw [if_pos h, if_pos h,
        if_neg (by omega : ¬ (timeToSecGo y.time - timeToSecGo x.time ≤ 0))]
    · rw [if_neg h, if_neg h]
      exact busLoopGoChecked_eq nowSec coords (y :: rest) idxs.tail

/-- The TypeScript interval loop never reaches a division with
non-positive divisor. -/
theorem busLoopTsChecked_eq (nowSec : Int) (coords : List (Rat × Rat)) :
    ∀ (stops : List TripStop) (idxs : List Int),
      busLoopTsChecked nowSec coords stops idxs =
        some (busLoopTs nowSec coords stops idxs)
  | [], _ => rfl
  | [_], _ => rfl
  | x :: y :: rest, idxs => by
    unfold busLoopTsChecked busLoopTs
    cases h1 : timeToSecTs x.time with
    | none =>
      exact busLoopTsChecked_eq nowSec coords (y :: rest) idxs.tail
    | some s1 =>
      cases h2 : timeToSecTs y.time with
      | none =>
        exact busLoopTsChecked_eq nowSec coords (y :: rest) idxs.tail
      | some s2 =>
        dsimp only
        by_cases h : s1 ≤ nowSec ∧ nowSec < s2
        · rw [if_pos h, if_pos h, if_neg (by omega : ¬ (s2 - s1 ≤ 0))]
        · rw [if_neg h, if_neg h]
          exact busLoopTsChecked_eq nowSec coords (y :: rest) idxs.tail

/-- C9: for every trip and every time now, whenever the interpolator —
Go or TypeScript copy — evaluates the ratio (now - s_i) / (s_i+1 - s_i),
the divisor is strictly positive: the variants instrumented to signal a
non-positive divisor always return the plain result, so no division by
zero ever occurs. -/
theorem interpolator_divisor_positive
    (trip : TripInfo) (nowSec : Int) (patternKey : String)
    (shapes : List (String × ShapeData)) (stops : List TripStop) :
    calculateBusPositionChecked trip nowSec patternKey shapes =
      some (calculateBusPosition trip nowSec patternKey shapes)
    ∧ calculateBusPosChecked stops nowSec shapes =
      some (calculateBusPos stops nowSec shapes) := by
  constructor
  · unfold calculateBusPositionChecked calculateBusPosition
    cases lookupA shapes patternKey with
    | none => rfl
    | some shape =>
      by_cases h : shape.coordinates.length = 0 ∨ shape.stop_indices.length = 0
      · simp only [if_pos h]
      · simp only [if_neg h]
        exact busLoopGoChecked_eq nowSec shape.coordinates trip.stops shape.stop_indices
  · unfold calculateBusPosChecked calculateBusPos
    cases lookupA shapes (patternKeyOf stops) with
    | none => rfl
    | some shapeData =>
      exact busLoopTsChecked_eq nowSec shapeData.coordinates stops shapeData.stop_indices

/-! ## C1: the interpolator equals the reference definition -/

/-- Reading the tail at `n` is reading the list at `n + 1`. -/
theorem tail_get {α : Type} (l : List α) (n : Nat) :
    l.tail.get? n = l.get? (n + 1) := by
  cases l <;> rfl

/-- The Go upper clamp agrees with `min` against the last valid index. -/
theorem clamp_eq_min (t L : Int) : (if L ≤ t then L - 1 else t) = min t (L - 1) := by
  rcases le_or_lt L t with h | h
  · rw [if_pos h, min_eq_right (by omega)]
  · rw [if_neg (by omega), min_eq_left (by omega)]

/-- The Go interval loop computes the first-matching-interval search of
the reference, with the stop indices read positionally. -/
theorem busLoopGo_eq_ref (nowSec : Int) (coords : List (Rat × Rat)) :
    ∀ (stops : List TripStop) (idxs : List Int),
      busLoopGo nowSec coords stops idxs =
        (match refFindInterval nowSec stops with
         | none => none
         | some (i, s1, s2) =>
           match idxs.get? i, idxs.get? (i + 1) with
           | some a, some b =>
             listIdx coords
               (min (floorTarget a b (nowSec - s1) (s2 - s1)) ((coords.length : Int) - 1))
           | _, _ => none)
  | [], _ => rfl
  | [_], _ => rfl
  | x :: y :: rest, idxs => by
    unfold busLoopGo refFindInterval
    by_cases h : timeToSecGo x.time ≤ nowSec ∧ nowSec < timeToSecGo y.time
    · rw [if_pos h, if_pos h]
      dsimp only
      cases idxs with
      | nil => rfl
      | cons a idxs1 =>
        cases idxs1 with
        | nil => rfl
        | cons b idxs2 =>
          dsimp only
          rw [clamp_eq_min]
          rfl
    · rw [if_neg h, if_neg h]
      rw [busLoopGo_eq_ref nowSec coords (y :: rest) idxs.tail]
      cases hr : refFindInterval nowSec (y :: rest) with
      | none => rfl
      | some p =>
        obtain ⟨i, s1, s2⟩ := p
        dsimp only [Option.map]
        rw [tail_get, tail_get]

/-- C1: for every trip with at least 2 stops and every time of day, the
Go interpolator `calculateBusPosition`, invoked with the trip's pattern
key, equals the reference `Interpolate` of the specification: none
outside every interval [s_i, s_i+1), none for an absent shape or empty
coordinates or stop indices, and otherwise the shape coordinate at the
floor of the linearly mapped stop-index span, clamped to the last valid
coordinate index. -/
theorem interpolate_matches_reference
    (trip : TripInfo) (nowSec : Int) (shapes : List (String × ShapeData))
    (_h2 : 2 ≤ trip.stops.length) :
    calculateBusPosition trip nowSec (patternKeyOf trip.stops) shapes =
      interpolateRef trip.stops nowSec (lookupA shapes (patternKeyOf trip.stops)) := by
  unfold calculateBusPosition interpolateRef
  cases lookupA shapes (patternKeyOf trip.stops) with
  | none => rfl
  | some sh =>
    dsimp only
    by_cases he : sh.coordinates.length = 0 ∨ sh.stop_indices.length = 0
    · rw [if_pos he, if_pos he]
    · rw [if_neg he, if_neg he]
      rw [busLoopGo_eq_ref]

/-- Witness for C1: the spec's own scenario — stops at 08:00:00 and
08:10:00, 11 coordinates, indices 0 and 10, now = 08:05:00. -/
theorem interpolate_matches_reference_witness :
    2 ≤ ([{ time := "08:00:00", stop_id := "A" },
          { time := "08:10:00", stop_id := "B" }] : List TripStop).length
    ∧ calculateBusPosition
        { headsign := "h", service_id := "s", office_id := "o", via := "",
          stops := [{ time := "08:00:00", stop_id := "A" },
                    { time := "08:10:00", stop_id := "B" }] } 29100
        (patternKeyOf [{ time := "08:00:00", stop_id := "A" },
                       { time := "08:10:00", stop_id := "B" }])
        [("A|B", { coordinates := [(0, 0), (1, 1), (2, 2), (3, 3), (4, 4), (5, 5),
                                   (6, 6), (7, 7), (8, 8), (9, 9), (10, 10)],
                   stop_indices := [0, 10] })] =
      interpolateRef
        [{ time := "08:00:00", stop_id := "A" },
         { time := "08:10:00", stop_id := "B" }] 29100
        (lookupA
          [("A|B", { coordinates := [(0, 0), (1, 1), (2, 2), (3, 3), (4, 4), (5, 5),
                                     (6, 6), (7, 7), (8, 8), (9, 9), (10, 10)],
                     stop_indices := [0, 10] })]
          (patternKeyOf [{ time := "08:00:00", stop_id := "A" },
                         { time := "08:10:00", stop_id := "B" }])) :=
  ⟨by decide,
   interpolate_matches_reference
     { headsign := "h", service_id := "s", office_id := "o", via := "",
       stops := [{ time := "08:00:00", stop_id := "A" },
                 { time := "08:10:00", stop_id := "B" }] } 29100
     [("A|B", { coordinates := [(0, 0), (1, 1), (2, 2), (3, 3), (4, 4), (5, 5),
                                (6, 6), (7, 7), (8, 8), (9, 9), (10, 10)],
                stop_indices := [0, 10] })]
     (by decide)⟩

/-! ## C7: the trip-detail shape field -/

/-- C7 (code_bug): for a known route and trip whose pattern key has no
entry in the geometry table, the handler still wraps a shape — the Go
zero value with empty coordinates and stop indices — because it reads
the map without the ok flag and always takes the address of the local;
the response's shape field is some (empty shape), never the null the
specification promises. -/
theorem trip_detail_shape_never_null :
    ((getTripDetail "R1" "T1"
        [("R1", [("T1", { headsign := "h", service_id := "s", office_id := "o",
                          via := "",
                          stops := [{ time := "08:00:00", stop_id := "A" },
                                    { time := "08:10:00", stop_id := "B" }] })])]
        [] [] [] []).map (fun r => r.shape))
      = some (some { coordinates := [], stop_indices := [] }) := by
  decide

/-! ## Arrival-collection characterization (shared by C5 and C10) -/

/-- An element of the unsorted arrival collection is exactly a row built
from some trip of some route whose service runs today and whose first
stop-time matching the target set is `st`. -/
theorem mem_collectArrivals_iff
    (targetIds : List String) (currentTime ymd : String) (wd : Nat)
    (stops : List (String × StopInfo))
    (timetables : List (String × List (String × TripInfo)))
    (calendar : List (String × CalendarEntry))
    (exceptions : List CalendarDateException) (a : Arrival) :
    a ∈ collectArrivals targetIds currentTime ymd wd stops timetables calendar exceptions ↔
      ∃ rid trips tid trip st,
        (rid, trips) ∈ timetables ∧ (tid, trip) ∈ trips ∧
        isServiceRunningTodayTs trip.service_id ymd wd calendar exceptions = true ∧
        trip.stops.find? (fun s => targetIds.contains s.stop_id) = some st ∧
        a = mkArrival rid tid trip st stops currentTime := by
  unfold collectArrivals
  rw [List.mem_flatMap]
  constructor
  · rintro ⟨rt, hrt, hmem⟩
    rw [List.mem_filterMap] at hmem
    obtain ⟨tt, htt, hg⟩ := hmem
    by_cases hrun : isServiceRunningTodayTs tt.2.service_id ymd wd calendar exceptions = true
    · rw [if_neg (by simp [hrun])] at hg
      cases hfind : tt.2.stops.find? (fun s => targetIds.contains s.stop_id) with
      | none => rw [hfind] at hg; cases hg
      | some st =>
        rw [hfind] at hg
        refine ⟨rt.1, rt.2, tt.1, tt.2, st, hrt, htt, hrun, hfind, ?_⟩
        exact (Option.some_inj.mp hg).symm
    · rw [if_pos (by simpa using hrun)] at hg
      cases hg
  · rintro ⟨rid, trips, tid, trip, st, hrt, htt, hrun, hfind, ha⟩
    refine ⟨(rid, trips), hrt, ?_⟩
    rw [List.mem_filterMap]
    refine ⟨(tid, trip), htt, ?_⟩
    rw [if_neg (by simp [hrun])]
    rw [hfind, ha]

/-! ## C10: the stop-timetable endpoint -/

/-- C10: for a stop id present in the stop table, the timetable response
contains route r and trip t exactly when t's stop list contains that
stop id; no calendar input exists for this handler, and the service-day
filtering happens only in the client aggregation, whose every arrival
comes from a trip whose service runs today. -/
theorem stop_timetable_membership
    (stopId : String) (stops : List (String × StopInfo))
    (timetables : List (String × List (String × TripInfo)))
    (stop : StopInfo) (hstop : lookupA stops stopId = some stop)
    (r t : String) (trip : TripInfo) :
    ((∃ resp l, getStopTimetable stopId stops timetables = some resp ∧
        (r, l) ∈ resp.timetables ∧ (t, trip) ∈ l) ↔
      (∃ trips, (r, trips) ∈ timetables ∧ (t, trip) ∈ trips ∧
        trip.stops.any (fun ts => ts.stop_id = stopId) = true))
    ∧ (∀ targetIds currentTime ymd wd calendar exceptions a,
        a ∈ buildArrivals targetIds currentTime ymd wd stops timetables
              calendar exceptions →
        ∃ rid tid tr,
          isServiceRunningTodayTs tr.service_id ymd wd calendar exceptions = true ∧
          (∃ trips2, (rid, trips2) ∈ timetables ∧ (tid, tr) ∈ trips2) ∧
          a.trip_id = tid ∧ a.route_id = rid) := by
  constructor
  · unfold getStopTimetable
    rw [hstop]
    dsimp only
    constructor
    · rintro ⟨resp, l, hresp, hrl, htl⟩
      obtain rfl : _ = resp := Option.some_inj.mp hresp
      dsimp only at hrl
      rw [List.mem_filterMap] at hrl
      obtain ⟨rt, hrt, hf⟩ := hrl
      by_cases hemp : (rt.2.filter
          (fun tt => tt.2.stops.any (fun ts => ts.stop_id = stopId))).isEmpty
      · rw [if_pos hemp] at hf; cases hf
      · rw [if_neg hemp] at hf
        obtain ⟨h1, h2⟩ := Prod.mk.injEq .. ▸ (Option.some_inj.mp hf)
        subst h1
        rw [← h2] at htl
        rw [List.mem_filter] at htl
        exact ⟨rt.2, hrt, htl.1, by simpa using htl.2⟩
    · rintro ⟨trips, hrt, htt, hany⟩
      refine ⟨_, (r, trips).2.filter
          (fun tt => tt.2.stops.any (fun ts => ts.stop_id = stopId)), rfl, ?_, ?_⟩
      · dsimp only
        rw [List.mem_filterMap]
        refine ⟨(r, trips), hrt, ?_⟩
        rw [if_neg ?_]
        intro hemp
        rw [List.isEmpty_iff] at hemp
        have : (t, trip) ∈ trips.filter
            (fun tt => tt.2.stops.any (fun ts => ts.stop_id = stopId)) :=
          List.mem_filter.mpr ⟨htt, by simpa using hany⟩
        rw [hemp] at this
        cases this
      · exact List.mem_filter.mpr ⟨htt, by simpa using hany⟩
  · intro targetIds currentTime ymd wd calendar exceptions a ha
    unfold buildArrivals at ha
    rw [List.mem_insertionSort] at ha
    rw [mem_collectArrivals_iff] at ha
    obtain ⟨rid, trips, tid, tr, st, hrt, htt, hrun, _, ha⟩ := ha
    exact ⟨rid, tid, tr, hrun, ⟨trips, hrt, htt⟩, by rw [ha]; rfl, by rw [ha]; rfl⟩

/-- Witness for C10: a two-route table; the queried stop appears in one
trip only, and that trip is reported. -/
theorem stop_timetable_membership_witness :
    (∃ resp l,
        getStopTimetable "A" [("A", { name := "Central", yomi := "", lat := 0,
                                      lng := 0, platform := "" })]
          [("R1", [("T1", { headsign := "h", service_id := "s", office_id := "o",
                            via := "",
                            stops := [{ time := "08:00:00", stop_id := "A" }] })]),
           ("R2", [("T2", { headsign := "h", service_id := "s", office_id := "o",
                            via := "",
                            stops := [{ time := "09:00:00", stop_id := "B" }] })])] =
          some resp ∧
        (("R1", l) ∈ resp.timetables ∧
          (("T1", { headsign := "h", service_id := "s", office_id := "o", via := "",
                    stops := [{ time := "08:00:00", stop_id := "A" }] }) ∈ l))) :=
  ((stop_timetable_membership "A"
      [("A", { name := "Central", yomi := "", lat := 0, lng := 0, platform := "" })]
      [("R1", [("T1", { headsign := "h", service_id := "s", office_id := "o",
                        via := "",
                        stops := [{ time := "08:00:00", stop_id := "A" }] })]),
       ("R2", [("T2", { headsign := "h", service_id := "s", office_id := "o",
                        via := "",
                        stops := [{ time := "09:00:00", stop_id := "B" }] })])]
      { name := "Central", yomi := "", lat := 0, lng := 0, platform := "" }
      (by decide) "R1" "T1"
      { headsign := "h", service_id := "s", office_id := "o", via := "",
        stops := [{ time := "08:00:00", stop_id := "A" }] }).1).mpr
    ⟨[("T1", { headsign := "h", service_id := "s", office_id := "o", via := "",
               stops := [{ time := "08:00:00", stop_id := "A" }] })],
     by decide, by decide, by decide⟩

/-! ## C4: the vehicle locator emits exactly one entry per passing trip -/

/-- Nothing a filterMap produces satisfies `p` when no source element
can. -/
theorem countP_filterMap_zero {β γ : Type} (l : List β) (g : β → Option γ)
    (p : γ → Bool) (h : ∀ x ∈ l, ∀ b, g x = some b → p b = false) :
    (l.filterMap g).countP p = 0 := by
  rw [List.countP_eq_zero]
  intro b hb
  obtain ⟨x, hx, hg⟩ := List.mem_filterMap.mp hb
  simp [h x hx b hg]

/-- Counting over a keyed flatMap: only the unique entry with key `r`
can contribute. -/
theorem countP_flatMap_by_key {β γ : Type}
    (f : String × β → List γ) (p : γ → Bool) (r : String) (v : β) :
    ∀ (l : List (String × β)),
      (l.map Prod.fst).Nodup → (r, v) ∈ l →
      (∀ x ∈ l, x.1 ≠ r → ∀ b ∈ f x, p b = false) →
      (l.flatMap f).countP p = (f (r, v)).countP p
  | [], _, hmem, _ => absurd hmem (List.not_mem_nil _)
  | x :: rest, hnodup, hmem, hkey => by
    rw [List.flatMap_cons, List.countP_append]
    have hnodup1 : x.1 ∉ rest.map Prod.fst := (List.nodup_cons.mp hnodup).1
    rcases List.mem_cons.mp hmem with hx | hrest
    · have hzero : (rest.flatMap f).countP p = 0 := by
        rw [List.countP_eq_zero]
        intro b hb
        obtain ⟨y, hy, hby⟩ := List.mem_flatMap.mp hb
        have hyne : y.1 ≠ r := by
          intro heq
          have hx1 : x.1 = r := by rw [← hx]
          have hyin : y.1 ∈ rest.map Prod.fst := List.mem_map_of_mem Prod.fst hy
          rw [heq, ← hx1] at hyin
          exact hnodup1 hyin
        simpa using (hkey y (List.mem_cons_of_mem x hy) hyne b hby)
      rw [← hx, hzero]
      omega
    · have hx1 : x.1 ≠ r := by
        intro heq
        have hrin : r ∈ rest.map Prod.fst := List.mem_map_of_mem Prod.fst hrest
        rw [← heq] at hrin
        exact hnodup1 hrin
      have hzero : (f x).countP p = 0 := by
        rw [List.countP_eq_zero]
        intro b hb
        simpa using hkey x (List.mem_cons_self x rest) hx1 b hb
      rw [hzero,
        countP_flatMap_by_key f p r v rest (List.nodup_cons.mp hnodup).2 hrest
          (fun y hy => hkey y (List.mem_cons_of_mem x hy))]
      omega

/-- Counting over a keyed filterMap: only the unique entry with key `t`
can contribute, giving 1 exactly when it produces a value. -/
theorem countP_filterMap_by_key {β γ : Type}
    (g : String × β → Option γ) (p : γ → Bool) (t : String) (v : β) :
    ∀ (l : List (String × β)),
      (l.map Prod.fst).Nodup → (t, v) ∈ l →
      (∀ x ∈ l, x.1 ≠ t → ∀ b, g x = some b → p b = false) →
      (∀ b, g (t, v) = some b → p b = true) →
      (l.filterMap g).countP p = if (g (t, v)).isSome then 1 else 0
  | [], _, hmem, _, _ => absurd hmem (List.not_mem_nil _)
  | x :: rest, hnodup, hmem, hkey, hp => by
    rw [List.filterMap_cons]
    have hnodup1 : x.1 ∉ rest.map Prod.fst := (List.nodup_cons.mp hnodup).1
    rcases List.mem_cons.mp hmem with hx | hrest
    · have hzero : (rest.filterMap g).countP p = 0 := by
        apply countP_filterMap_zero
        intro y hy b hb
        have hyne : y.1 ≠ t := by
          intro heq
          have hx1 : x.1 = t := by rw [← hx]
          have hyin : y.1 ∈ rest.map Prod.fst := List.mem_map_of_mem Prod.fst hy
          rw [heq, ← hx1] at hyin
          exact hnodup1 hyin
        exact hkey y (List.mem_cons_of_mem x hy) hyne b hb
      rw [← hx]
      cases hg : g (t, v) with
      | none => simp [hg, hzero]
      | some b =>
        have hpb : p b = true := hp b hg
        simp [hg, List.countP_cons, hzero, hpb]
    · have hx1 : x.1 ≠ t := by
        intro heq
        have htin : t ∈ rest.map Prod.fst := List.mem_map_of_mem Prod.fst hrest
        rw [← heq] at htin
        exact hnodup1 htin
      have hrec := countP_filterMap_by_key g p t v rest (List.nodup_cons.mp hnodup).2
        hrest (fun y hy => hkey y (List.mem_cons_of_mem x hy)) hp
      cases hg : g x with
      | none => rw [hrec]
      | some b =>
        have hpb : p b = false := hkey x (List.mem_cons_self x rest) hx1 b hg
        rw [List.countP_cons, hrec, hpb]
        simp

/-- Closed form of the per-trip body of the all-vehicles loop. -/
theorem emitAll_eq (nowSec : Int) (ymd : String) (wd : Nat)
    (shapes : List (String × ShapeData))
    (calendar : List (String × CalendarEntry))
    (exceptions : List CalendarDateException)
    (routes : List (String × RouteInfo)) (rid tid : String) (trip : TripInfo) :
    emitAll nowSec ymd wd shapes calendar exceptions routes rid (tid, trip) =
      if isServiceRunningTodayGo trip.service_id ymd wd calendar exceptions = true ∧
         2 ≤ trip.stops.length ∧
         timeToSecGo (trip.stops.headD dummyStop).time ≤ nowSec ∧
         nowSec ≤ timeToSecGo (trip.stops.getLastD dummyStop).time
      then (calculateBusPosition trip nowSec (patternKeyOf trip.stops) shapes).map
        (fun pos =>
          { trip_id := tid, route_id := rid,
            route_name := ((lookupA routes rid).getD zeroRouteInfo).short_name,
            headsign := trip.headsign, position := pos,
            color := ((lookupA routes rid).getD zeroRouteInfo).color })
      else none := by
  unfold emitAll
  dsimp only
  by_cases h1 : isServiceRunningTodayGo trip.service_id ymd wd calendar exceptions = true
  · rw [if_neg (by simpa using h1)]
    by_cases h2 : trip.stops.length < 2
    · rw [if_pos h2, if_neg (by omega)]
    · rw [if_neg h2]
      by_cases h3 : timeToSecGo (trip.stops.headD dummyStop).time ≤ nowSec ∧
          nowSec ≤ timeToSecGo (trip.stops.getLastD dummyStop).time
      · rw [if_pos h3, if_pos ⟨h1, by omega, h3.1, h3.2⟩]
        cases calculateBusPosition trip nowSec (patternKeyOf trip.stops) shapes <;> rfl
      · rw [if_neg h3, if_neg (by tauto)]
  · rw [if_pos (by simpa using h1), if_neg (by tauto)]

/-- Closed form of the per-trip body of the bounded-vehicles loop. -/
theorem emitInBounds_eq (minLat maxLat minLng maxLng : Rat)
    (nowSec : Int) (ymd : String) (wd : Nat)
    (shapes : List (String × ShapeData))
    (calendar : List (String × CalendarEntry))
    (exceptions : List CalendarDateException)
    (routes : List (String × RouteInfo)) (rid tid : String) (trip : TripInfo) :
    emitInBounds minLat maxLat minLng maxLng nowSec ymd wd shapes calendar
        exceptions routes rid (tid, trip) =
      if isServiceRunningTodayGo trip.service_id ymd wd calendar exceptions = true ∧
         2 ≤ trip.stops.length ∧
         timeToSecGo (trip.stops.headD dummyStop).time ≤ nowSec ∧
         nowSec ≤ timeToSecGo (trip.stops.getLastD dummyStop).time
      then (calculateBusPosition trip nowSec (patternKeyOf trip.stops) shapes).bind
        (fun pos =>
          if minLat ≤ pos.2 ∧ pos.2 ≤ maxLat ∧ minLng ≤ pos.1 ∧ pos.1 ≤ maxLng then
            some { trip_id := tid, route_id := rid,
                   route_name := ((lookupA routes rid).getD zeroRouteInfo).short_name,
                   headsign := trip.headsign, position := pos,
                   color := ((lookupA routes rid).getD zeroRouteInfo).color }
          else none)
      else none := by
  unfold emitInBounds
  dsimp only
  by_cases h1 : isServiceRunningTodayGo trip.service_id ymd wd calendar exceptions = true
  · rw [if_neg (by simpa using h1)]
    by_cases h2 : trip.stops.length < 2
    · rw [if_pos h2, if_neg (by omega)]
    · rw [if_neg h2]
      by_cases h3 : timeToSecGo (trip.stops.headD dummyStop).time ≤ nowSec ∧
          nowSec ≤ timeToSecGo (trip.stops.getLastD dummyStop).time
      · rw [if_pos h3, if_pos ⟨h1, by omega, h3.1, h3.2⟩]
        cases calculateBusPosition trip nowSec (patternKeyOf trip.stops) shapes <;> rfl
      · rw [if_neg h3, if_neg (by tauto)]
  · rw [if_pos (by simpa using h1), if_neg (by tauto)]

/-- C4: ActivePositions emits exactly one VehiclePosition — carrying
trip id, route id, route short name, headsign, coordinate and route
color — for each trip whose service runs today, that has at least 2
stops, whose first-to-last stop-time window contains now, and whose
interpolation yields a position; with bounds, additionally only when the
position's latitude and longitude lie inside the box.  A trip failing
any condition contributes no output. -/
theorem active_positions_emits_exactly_once
    (nowSec : Int) (ymd : String) (wd : Nat)
    (timetables : List (String × List (String × TripInfo)))
    (shapes : List (String × ShapeData))
    (calendar : List (String × CalendarEntry))
    (exceptions : List CalendarDateException)
    (routes : List (String × RouteInfo))
    (minLat maxLat minLng maxLng : Rat)
    (r t : String) (trip : TripInfo) (trips : List (String × TripInfo))
    (hnodupR : (timetables.map Prod.fst).Nodup)
    (hnodupT : ∀ p ∈ timetables, (p.2.map Prod.fst).Nodup)
    (hr : (r, trips) ∈ timetables) (ht : (t, trip) ∈ trips) :
    ((calculateAllBusPositions nowSec ymd wd timetables shapes calendar exceptions
        routes).countP (fun b => decide (b.trip_id = t ∧ b.route_id = r)) =
      if isServiceRunningTodayGo trip.service_id ymd wd calendar exceptions = true ∧
         2 ≤ trip.stops.length ∧
         timeToSecGo (trip.stops.headD dummyStop).time ≤ nowSec ∧
         nowSec ≤ timeToSecGo (trip.stops.getLastD dummyStop).time ∧
         (calculateBusPosition trip nowSec (patternKeyOf trip.stops) shapes).isSome = true
      then 1 else 0)
    ∧ ((calculateBusPositionsInBounds minLat maxLat minLng maxLng nowSec ymd wd
        timetables shapes calendar exceptions routes).countP
          (fun b => decide (b.trip_id = t ∧ b.route_id = r)) =
      if isServiceRunningTodayGo trip.service_id ymd wd calendar exceptions = true ∧
         2 ≤ trip.stops.length ∧
         timeToSecGo (trip.stops.headD dummyStop).time ≤ nowSec ∧
         nowSec ≤ timeToSecGo (trip.stops.getLastD dummyStop).time ∧
         ((calculateBusPosition trip nowSec (patternKeyOf trip.stops) shapes).any
           (fun pos => decide (minLat ≤ pos.2 ∧ pos.2 ≤ maxLat ∧
             minLng ≤ pos.1 ∧ pos.1 ≤ maxLng))) = true
      then 1 else 0)
    ∧ (∀ pos, calculateBusPosition trip nowSec (patternKeyOf trip.stops) shapes = some pos →
        isServiceRunningTodayGo trip.service_id ymd wd calendar exceptions = true →
        2 ≤ trip.stops.length →
        timeToSecGo (trip.stops.headD dummyStop).time ≤ nowSec →
        nowSec ≤ timeToSecGo (trip.stops.getLastD dummyStop).time →
        ({ trip_id := t, route_id := r,
           route_name := ((lookupA routes r).getD zeroRouteInfo).short_name,
           headsign := trip.headsign, position := pos,
           color := ((lookupA routes r).getD zeroRouteInfo).color } : BusPosition) ∈
          calculateAllBusPositions nowSec ymd wd timetables shapes calendar
            exceptions routes) := by
  have hfieldsAll : ∀ rid tt b,
      emitAll nowSec ymd wd shapes calendar exceptions routes rid tt = some b →
      b.trip_id = tt.1 ∧ b.route_id = rid := by
    intro rid tt b hb
    obtain ⟨tid, tr⟩ := tt
    rw [emitAll_eq] at hb
    split at hb
    · obtain ⟨pos, _, hpos⟩ := Option.map_eq_some'.mp hb
      rw [← hpos]
      exact ⟨rfl, rfl⟩
    · cases hb
  have hfieldsB : ∀ rid tt b,
      emitInBounds minLat maxLat minLng maxLng nowSec ymd wd shapes calendar
        exceptions routes rid tt = some b →
      b.trip_id = tt.1 ∧ b.route_id = rid := by
    intro rid tt b hb
    obtain ⟨tid, tr⟩ := tt
    rw [emitInBounds_eq] at hb
    split at hb
    · obtain ⟨pos, _, hpos⟩ := Option.bind_eq_some.mp hb
      split at hpos
      · rw [← Option.some_inj.mp hpos]
        exact ⟨rfl, rfl⟩
      · cases hpos
    · cases hb
  refine ⟨?_, ?_, ?_⟩
  · unfold calculateAllBusPositions
    rw [countP_flatMap_by_key _ _ r trips timetables hnodupR hr ?keyzero]
    case keyzero =>
      intro x hx hxr b hb
      obtain ⟨tt, _, hg⟩ := List.mem_filterMap.mp hb
      have := hfieldsAll x.1 tt b hg
      simp [this.2, hxr]
    rw [countP_filterMap_by_key _ _ t trip trips (hnodupT (r, trips) hr) ht
      (fun y hy hyt b hb => by
        have := hfieldsAll r y b hb
        simp [this.1, hyt])
      (fun b hb => by
        have := hfieldsAll r (t, trip) b hb
        simp [this.1, this.2])]
    have hAll : ((emitAll nowSec ymd wd shapes calendar exceptions routes r
        (t, trip)).isSome = true) ↔
        (isServiceRunningTodayGo trip.service_id ymd wd calendar exceptions = true ∧
         2 ≤ trip.stops.length ∧
         timeToSecGo (trip.stops.headD dummyStop).time ≤ nowSec ∧
         nowSec ≤ timeToSecGo (trip.stops.getLastD dummyStop).time ∧
         (calculateBusPosition trip nowSec (patternKeyOf trip.stops) shapes).isSome
           = true) := by
      rw [emitAll_eq]
      by_cases hc : isServiceRunningTodayGo trip.service_id ymd wd calendar
          exceptions = true ∧ 2 ≤ trip.stops.length ∧
          timeToSecGo (trip.stops.headD dummyStop).time ≤ nowSec ∧
          nowSec ≤ timeToSecGo (trip.stops.getLastD dummyStop).time
      · rw [if_pos hc]
        cases hp : calculateBusPosition trip nowSec (patternKeyOf trip.stops) shapes with
        | none =>
          constructor
          · intro h
            exact absurd h (by simp)
          · rintro ⟨_, _, _, _, h5⟩
            exact absurd h5 (by simp)
        | some pos =>
          constructor
          · intro _
            exact ⟨hc.1, hc.2.1, hc.2.2.1, hc.2.2.2, rfl⟩
          · intro _
            rfl
      · rw [if_neg hc]
        constructor
        · intro h
          exact absurd h (by simp)
        · rintro ⟨h1, h2, h3, h4, _⟩
          exact absurd ⟨h1, h2, h3, h4⟩ hc
    exact if_congr hAll rfl rfl
  · unfold calculateBusPositionsInBounds
    rw [countP_flatMap_by_key _ _ r trips timetables hnodupR hr ?keyzeroB]
    case keyzeroB =>
      intro x hx hxr b hb
      obtain ⟨tt, _, hg⟩ := List.mem_filterMap.mp hb
      have := hfieldsB x.1 tt b hg
      simp [this.2, hxr]
    rw [countP_filterMap_by_key _ _ t trip trips (hnodupT (r, trips) hr) ht
      (fun y hy hyt b hb => by
        have := hfieldsB r y b hb
        simp [this.1, hyt])
      (fun b hb => by
        have := hfieldsB r (t, trip) b hb
        simp [this.1, this.2])]
    have hB : ((emitInBounds minLat maxLat minLng maxLng nowSec ymd wd shapes
        calendar exceptions routes r (t, trip)).isSome = true) ↔
        (isServiceRunningTodayGo trip.service_id ymd wd calendar exceptions = true ∧
         2 ≤ trip.stops.length ∧
         timeToSecGo (trip.stops.headD dummyStop).time ≤ nowSec ∧
         nowSec ≤ timeToSecGo (trip.stops.getLastD dummyStop).time ∧
         ((calculateBusPosition trip nowSec (patternKeyOf trip.stops) shapes).any
           (fun pos => decide (minLat ≤ pos.2 ∧ pos.2 ≤ maxLat ∧
             minLng ≤ pos.1 ∧ pos.1 ≤ maxLng))) = true) := by
      rw [emitInBounds_eq]
      by_cases hc : isServiceRunningTodayGo trip.service_id ymd wd calendar
          exceptions = true ∧ 2 ≤ trip.stops.length ∧
          timeToSecGo (trip.stops.headD dummyStop).time ≤ nowSec ∧
          nowSec ≤ timeToSecGo (trip.stops.getLastD dummyStop).time
      · rw [if_pos hc]
        cases hp : calculateBusPosition trip nowSec (patternKeyOf trip.stops) shapes with
        | none =>
          constructor
          · intro h
            exact absurd h (by simp)
          · rintro ⟨_, _, _, _, h5⟩
            exact absurd h5 (by simp [Option.any])
        | some pos =>
          by_cases hbnd : minLat ≤ pos.2 ∧ pos.2 ≤ maxLat ∧
              minLng ≤ pos.1 ∧ pos.1 ≤ maxLng
          · constructor
            · intro _
              refine ⟨hc.1, hc.2.1, hc.2.2.1, hc.2.2.2, ?_⟩
              simp [Option.any, hbnd]
            · intro _
              simp [Option.bind, hbnd]
          · constructor
            · intro h
              simp [Option.bind, hbnd] at h
            · rintro ⟨_, _, _, _, h5⟩
              simp [Option.any, hbnd] at h5
      · rw [if_neg hc]
        constructor
        · intro h
          exact absurd h (by simp)
        · rintro ⟨h1, h2, h3, h4, _⟩
          exact absurd ⟨h1, h2, h3, h4⟩ hc
    exact if_congr hB rfl rfl
  · intro pos hpos hrun hlen hs1 hs2
    unfold calculateAllBusPositions
    rw [List.mem_flatMap]
    refine ⟨(r, trips), hr, ?_⟩
    rw [List.mem_filterMap]
    refine ⟨(t, trip), ht, ?_⟩
    rw [emitAll_eq, if_pos ⟨hrun, hlen, hs1, hs2⟩, hpos]
    rfl

/-- Witness for C4: a one-route, one-trip snapshot whose trip passes
every check emits its entry. -/
theorem active_positions_emits_exactly_once_witness :
    ({ trip_id := "T1", route_id := "R1",
       route_name := ((lookupA [("R1", { short_name := "X8", color := "00703c" })]
         "R1").getD zeroRouteInfo).short_name,
       headsign := "Station", position := ((5 : Rat), (5 : Rat)),
       color := ((lookupA [("R1", { short_name := "X8", color := "00703c" })]
         "R1").getD zeroRouteInfo).color } : BusPosition) ∈
      calculateAllBusPositions 29100 "20240103" 3
        [("R1", [("T1", { headsign := "Station", service_id := "S1",
                          office_id := "O1", via := "",
                          stops := [{ time := "08:00:00", stop_id := "A" },
                                    { time := "08:10:00", stop_id := "B" }] })])]
        [("A|B", { coordinates := [(0, 0), (1, 1), (2, 2), (3, 3), (4, 4), (5, 5),
                                   (6, 6), (7, 7), (8, 8), (9, 9), (10, 10)],
                   stop_indices := [0, 10] })]
        [] [{ service_id := "S1", date := "20240103", exception_type := "1" }]
        [("R1", { short_name := "X8", color := "00703c" })] :=
  (active_positions_emits_exactly_once 29100 "20240103" 3
      [("R1", [("T1", { headsign := "Station", service_id := "S1",
                        office_id := "O1", via := "",
                        stops := [{ time := "08:00:00", stop_id := "A" },
                                  { time := "08:10:00", stop_id := "B" }] })])]
      [("A|B", { coordinates := [(0, 0), (1, 1), (2, 2), (3, 3), (4, 4), (5, 5),
                                 (6, 6), (7, 7), (8, 8), (9, 9), (10, 10)],
                 stop_indices := [0, 10] })]
      [] [{ service_id := "S1", date := "20240103", exception_type := "1" }]
      [("R1", { short_name := "X8", color := "00703c" })]
      0 10 0 10 "R1" "T1"
      { headsign := "Station", service_id := "S1", office_id := "O1", via := "",
        stops := [{ time := "08:00:00", stop_id := "A" },
                  { time := "08:10:00", stop_id := "B" }] }
      [("T1", { headsign := "Station", service_id := "S1", office_id := "O1",
                via := "",
                stops := [{ time := "08:00:00", stop_id := "A" },
                          { time := "08:10:00", stop_id := "B" }] })]
      (by decide) (by decide) (by decide) (by decide)).2.2
    (5, 5) (by decide) (by decide) (by decide) (by decide) (by decide)

/-! ## C6: the backing coordinate index is monotone in time -/

/-- The target index never falls below the segment's lower stop index. -/
theorem floorTarget_ge_a (a b n d : Int) (hab : a ≤ b) (hd : 0 < d) (hn : 0 ≤ n) :
    a ≤ floorTarget a b n d := by
  unfold floorTarget
  have := Int.fdiv_nonneg (mul_nonneg (by omega : (0 : Int) ≤ b - a) hn) hd.le
  omega

/-- The target index never exceeds the segment's upper stop index. -/
theorem floorTarget_le_b (a b n d : Int) (hab : a ≤ b) (hd : 0 < d)
    (_hn : 0 ≤ n) (hnd : n ≤ d) : floorTarget a b n d ≤ b := by
  rw [floorTarget_eq_floor a b n d hd]
  have hba : (0 : Rat) ≤ (b : Rat) - (a : Rat) := by
    rw [sub_nonneg]
    exact_mod_cast hab
  have h1 : ((n : Rat) / (d : Rat)) ≤ 1 := by
    rw [div_le_one (by exact_mod_cast hd)]
    exact_mod_cast hnd
  have h2 : (a : Rat) + ((b : Rat) - (a : Rat)) * ((n : Rat) / (d : Rat)) ≤ (b : Rat) := by
    nlinarith
  calc Int.floor ((a : Rat) + ((b : Rat) - (a : Rat)) * ((n : Rat) / (d : Rat)))
      ≤ Int.floor ((b : Rat)) := Int.floor_le_floor h2
    _ = b := Int.floor_intCast b

/-- The target index grows with the elapsed time inside one segment. -/
theorem floorTarget_mono_n (a b n n' d : Int) (hab : a ≤ b) (hd : 0 < d)
    (hn : n ≤ n') : floorTarget a b n d ≤ floorTarget a b n' d := by
  rw [floorTarget_eq_floor a b n d hd, floorTarget_eq_floor a b n' d hd]
  apply Int.floor_le_floor
  have hba : (0 : Rat) ≤ (b : Rat) - (a : Rat) := by
    rw [sub_nonneg]
    exact_mod_cast hab
  have hdq : (0 : Rat) < (d : Rat) := by exact_mod_cast hd
  have hq : ((n : Rat) / (d : Rat)) ≤ ((n' : Rat) / (d : Rat)) := by
    have hnq : ((n : Rat)) ≤ ((n' : Rat)) := by exact_mod_cast hn
    exact (div_le_div_iff_of_pos_right hdq).mpr hnq
  have := mul_le_mul_of_nonneg_left hq hba
  linarith

/-- A stop-index list with fewer than two entries never yields a target
index. -/
theorem busIdxRawGo_short (nowSec : Int) :
    ∀ (stops : List TripStop) (idxs : List Int), idxs.length < 2 →
      busIdxRawGo nowSec stops idxs = none
  | [], _, _ => rfl
  | [_], _, _ => rfl
  | x :: y :: rest, idxs, hlen => by
    unfold busIdxRawGo
    by_cases h : timeToSecGo x.time ≤ nowSec ∧ nowSec < timeToSecGo y.time
    · rw [if_pos h]
      match idxs, hlen with
      | [], _ => rfl
      | [a], _ => rfl
    · rw [if_neg h]
      exact busIdxRawGo_short nowSec (y :: rest) idxs.tail
        (by cases idxs with
          | nil => simp
          | cons c cs => simp only [List.tail_cons]; simp at hlen; omega)

/-- Any produced raw target index is at least the head stop index. -/
theorem busIdxRawGo_lb (nowSec : Int) :
    ∀ (stops : List TripStop) (idxs : List Int) (t a : Int),
      List.Chain' (fun u v => u ≤ v) idxs →
      busIdxRawGo nowSec stops idxs = some t →
      idxs.head? = some a → a ≤ t
  | [], _, t, a, _, ht, _ => by cases ht
  | [_], _, t, a, _, ht, _ => by cases ht
  | x :: y :: rest, idxs, t, a, hchain, ht, ha => by
    unfold busIdxRawGo at ht
    by_cases h : timeToSecGo x.time ≤ nowSec ∧ nowSec < timeToSecGo y.time
    · rw [if_pos h] at ht
      cases idxs with
      | nil => cases ht
      | cons a0 rest0 =>
        cases rest0 with
        | nil => cases ht
        | cons b0 rest1 =>
          obtain rfl : a = a0 := by simpa using ha.symm
          obtain rfl : floorTarget a b0 (nowSec - timeToSecGo x.time)
              (timeToSecGo y.time - timeToSecGo x.time) = t := by simpa using ht
          exact floorTarget_ge_a a b0 _ _ (List.chain'_cons.mp hchain).1
            (by omega) (by omega)
    · rw [if_neg h] at ht
      cases idxs with
      | nil => exact absurd ha (by simp)
      | cons a0 rest0 =>
        obtain rfl : a = a0 := by simpa using ha.symm
        simp only [List.tail_cons] at ht
        cases rest0 with
        | nil =>
          rw [busIdxRawGo_short nowSec (y :: rest) [] (by simp)] at ht
          cases ht
        | cons a1 rest1 =>
          have h1 := busIdxRawGo_lb nowSec (y :: rest) (a1 :: rest1) t a1
            (List.chain'_cons.mp hchain).2 ht rfl
          have h2 := (List.chain'_cons.mp hchain).1
          omega

/-- A produced raw target index needs `now` at or past the first stop. -/
theorem busIdxRawGo_time_lb (nowSec : Int) :
    ∀ (stops : List TripStop) (idxs : List Int) (t : Int),
      List.Chain' (fun u v => timeToSecGo u.time < timeToSecGo v.time) stops →
      busIdxRawGo nowSec stops idxs = some t →
      ∀ x, stops.head? = some x → timeToSecGo x.time ≤ nowSec
  | [], _, t, _, ht => by cases ht
  | [_], _, t, _, ht => by cases ht
  | x :: y :: rest, idxs, t, hchain, ht => by
    intro x0 hx0
    obtain rfl : x = x0 := by simpa using hx0
    unfold busIdxRawGo at ht
    by_cases h : timeToSecGo x.time ≤ nowSec ∧ nowSec < timeToSecGo y.time
    · exact h.1
    · rw [if_neg h] at ht
      have hy := busIdxRawGo_time_lb nowSec (y :: rest) idxs.tail t
        (List.chain'_cons.mp hchain).2 ht y rfl
      have := (List.chain'_cons.mp hchain).1
      omega

/-- The raw target index is monotone in `now`, within a segment and
across segment boundaries. -/
theorem busIdxRawGo_mono (now now' : Int) (hnow : now ≤ now') :
    ∀ (stops : List TripStop) (idxs : List Int) (t t' : Int),
      List.Chain' (fun u v => u ≤ v) idxs →
      List.Chain' (fun u v => timeToSecGo u.time < timeToSecGo v.time) stops →
      busIdxRawGo now stops idxs = some t →
      busIdxRawGo now' stops idxs = some t' → t ≤ t'
  | [], _, t, t', _, _, ht, _ => by cases ht
  | [_], _, t, t', _, _, ht, _ => by cases ht
  | x :: y :: rest, idxs, t, t', hcidx, hctime, ht, ht' => by
    unfold busIdxRawGo at ht ht'
    by_cases h1 : timeToSecGo x.time ≤ now ∧ now < timeToSecGo y.time
    · rw [if_pos h1] at ht
      by_cases h2 : timeToSecGo x.time ≤ now' ∧ now' < timeToSecGo y.time
      · rw [if_pos h2] at ht'
        cases idxs with
        | nil => cases ht
        | cons a0 rest0 =>
          cases rest0 with
          | nil => cases ht
          | cons b0 rest1 =>
            obtain rfl : floorTarget a0 b0 (now - timeToSecGo x.time)
                (timeToSecGo y.time - timeToSecGo x.time) = t := by simpa using ht
            obtain rfl : floorTarget a0 b0 (now' - timeToSecGo x.time)
                (timeToSecGo y.time - timeToSecGo x.time) = t' := by simpa using ht'
            exact floorTarget_mono_n a0 b0 _ _ _ (List.chain'_cons.mp hcidx).1
              (by omega) (by omega)
      · rw [if_neg h2] at ht'
        cases idxs with
        | nil => cases ht
        | cons a0 rest0 =>
          cases rest0 with
          | nil => cases ht
          | cons b0 rest1 =>
            obtain rfl : floorTarget a0 b0 (now - timeToSecGo x.time)
                (timeToSecGo y.time - timeToSecGo x.time) = t := by simpa using ht
            simp only [List.tail_cons] at ht'
            have hub : floorTarget a0 b0 (now - timeToSecGo x.time)
                (timeToSecGo y.time - timeToSecGo x.time) ≤ b0 :=
              floorTarget_le_b a0 b0 _ _ (List.chain'_cons.mp hcidx).1
                (by omega) (by omega) (by omega)
            have hlb : b0 ≤ t' :=
              busIdxRawGo_lb now' (y :: rest) (b0 :: rest1) t' b0
                (List.chain'_cons.mp hcidx).2 ht' rfl
            omega
    · rw [if_neg h1] at ht
      by_cases h2 : timeToSecGo x.time ≤ now' ∧ now' < timeToSecGo y.time
      · exfalso
        have hy := busIdxRawGo_time_lb now (y :: rest) idxs.tail t
          (List.chain'_cons.mp hctime).2 ht y rfl
        omega
      · rw [if_neg h2] at ht'
        exact busIdxRawGo_mono now now' hnow (y :: rest) idxs.tail t t'
          hcidx.tail (List.chain'_cons.mp hctime).2 ht ht'

/-- The interpolator's coordinate is the coordinate-array read at the
clamped backing index. -/
theorem busLoopGo_eq_idx (nowSec : Int) (coords : List (Rat × Rat)) :
    ∀ (stops : List TripStop) (idxs : List Int),
      busLoopGo nowSec coords stops idxs =
        (busIdxGo nowSec stops idxs coords.length).bind (listIdx coords)
  | [], _ => rfl
  | [_], _ => rfl
  | x :: y :: rest, idxs => by
    unfold busLoopGo busIdxGo busIdxRawGo
    by_cases h : timeToSecGo x.time ≤ nowSec ∧ nowSec < timeToSecGo y.time
    · rw [if_pos h, if_pos h]
      match idxs with
      | [] => rfl
      | [a] => rfl
      | a :: b :: _ => rfl
    · rw [if_neg h, if_neg h]
      exact busLoopGo_eq_idx nowSec coords (y :: rest) idxs.tail

/-- C6: for a trip whose shape has non-decreasing stop indices and
strictly increasing stop times, the backing coordinate index of the
interpolated position is monotonically non-decreasing in `now` across
the whole trip — and the interpolator's output is exactly the coordinate
at that backing index. -/
theorem backing_index_monotone
    (trip : TripInfo) (shape : ShapeData) (shapes : List (String × ShapeData))
    (now now' i i' : Int)
    (hlk : lookupA shapes (patternKeyOf trip.stops) = some shape)
    (hidx : List.Chain' (fun u v => u ≤ v) shape.stop_indices)
    (htimes : List.Chain' (fun u v => timeToSecGo u.time < timeToSecGo v.time) trip.stops)
    (hnow : now ≤ now')
    (hi : busIdxGo now trip.stops shape.stop_indices shape.coordinates.length = some i)
    (hi2 : busIdxGo now' trip.stops shape.stop_indices shape.coordinates.length = some i') :
    i ≤ i'
    ∧ ∀ n : Int, calculateBusPosition trip n (patternKeyOf trip.stops) shapes =
        (busIdxGo n trip.stops shape.stop_indices shape.coordinates.length).bind
          (listIdx shape.coordinates) := by
  constructor
  · unfold busIdxGo at hi hi2
    obtain ⟨t, hraw, hclamp⟩ := Option.map_eq_some'.mp hi
    obtain ⟨t', hraw', hclamp'⟩ := Option.map_eq_some'.mp hi2
    have hmono := busIdxRawGo_mono now now' hnow trip.stops shape.stop_indices
      t t' hidx htimes hraw hraw'
    rw [← hclamp, ← hclamp']
    split <;> split <;> omega
  · intro n
    unfold calculateBusPosition
    rw [hlk]
    show (if shape.coordinates.length = 0 ∨ shape.stop_indices.length = 0 then none
          else busLoopGo n shape.coordinates trip.stops shape.stop_indices) =
      (busIdxGo n trip.stops shape.stop_indices shape.coordinates.length).bind
        (listIdx shape.coordinates)
    by_cases he : shape.coordinates.length = 0 ∨ shape.stop_indices.length = 0
    · rw [if_pos he]
      rcases he with he | he
      · cases hraw : busIdxGo n trip.stops shape.stop_indices shape.coordinates.length with
        | none => rfl
        | some j =>
          have hcoords : shape.coordinates = [] := List.length_eq_zero.mp he
          simp only [Option.some_bind]
          unfold listIdx
          rw [hcoords]
          split
          · simp
          · rfl
      · unfold busIdxGo
        rw [busIdxRawGo_short n trip.stops shape.stop_indices (by omega)]
        rfl
    · rw [if_neg he]
      exact busLoopGo_eq_idx n shape.coordinates trip.stops shape.stop_indices
/-- Witness for C6: a three-stop trip with non-decreasing indices and
strictly increasing times; the backing index at 08:05 precedes the one
at 08:15. -/
theorem backing_index_monotone_witness :
    (1 : Int) ≤ 3
    ∧ ∀ n : Int, calculateBusPosition
        { headsign := "h", service_id := "s", office_id := "o", via := "",
          stops := [{ time := "08:00:00", stop_id := "A" },
                    { time := "08:10:00", stop_id := "B" },
                    { time := "08:20:00", stop_id := "C" }] } n
        (patternKeyOf [{ time := "08:00:00", stop_id := "A" },
                       { time := "08:10:00", stop_id := "B" },
                       { time := "08:20:00", stop_id := "C" }])
        [("A|B|C", { coordinates := [(0, 0), (1, 1), (2, 2), (3, 3), (4, 4)],
                     stop_indices := [0, 2, 4] })] =
      (busIdxGo n
        [{ time := "08:00:00", stop_id := "A" },
         { time := "08:10:00", stop_id := "B" },
         { time := "08:20:00", stop_id := "C" }] [0, 2, 4] 5).bind
        (listIdx [(0, 0), (1, 1), (2, 2), (3, 3), (4, 4)]) :=
  backing_index_monotone
    { headsign := "h", service_id := "s", office_id := "o", via := "",
      stops := [{ time := "08:00:00", stop_id := "A" },
                { time := "08:10:00", stop_id := "B" },
                { time := "08:20:00", stop_id := "C" }] }
    { coordinates := [(0, 0), (1, 1), (2, 2), (3, 3), (4, 4)],
      stop_indices := [0, 2, 4] }
    [("A|B|C", { coordinates := [(0, 0), (1, 1), (2, 2), (3, 3), (4, 4)],
                 stop_indices := [0, 2, 4] })]
    29100 29700 1 3 (by decide)
    (by simp only [List.chain'_cons, List.chain'_singleton, and_true]
        exact ⟨by decide, by decide⟩)
    (by simp only [List.chain'_cons, List.chain'_singleton, and_true]
        exact ⟨by decide, by decide⟩)
    (by decide) (by decide) (by decide)

/-! ## C5: the stop-panel arrival list -/

/-- The strict character-list order is transitive. -/
theorem charListLt_trans :
    ∀ (a b c : List Char), charListLt a b = true → charListLt b c = true →
      charListLt a c = true
  | [], [], _, hab, _ => by simp [charListLt] at hab
  | [], _ :: _, [], _, hbc => by simp [charListLt] at hbc
  | [], _ :: _, _ :: _, _, _ => rfl
  | _ :: _, [], _, hab, _ => by simp [charListLt] at hab
  | _ :: _, _ :: _, [], _, hbc => by simp [charListLt] at hbc
  | x :: xs, y :: ys, z :: zs, hab, hbc => by
    unfold charListLt at hab hbc ⊢
    by_cases hxy : x = y
    · rw [if_pos hxy] at hab
      by_cases hyz : y = z
      · rw [if_pos hyz] at hbc
        rw [if_pos (hxy.trans hyz)]
        exact charListLt_trans xs ys zs hab hbc
      · rw [if_neg hyz] at hbc
        have hlt : y < z := by simpa using hbc
        rw [if_neg (by rw [hxy]; exact ne_of_lt hlt), hxy]
        simpa using hlt
    · rw [if_neg hxy] at hab
      have hxylt : x < y := by simpa using hab
      by_cases hyz : y = z
      · rw [← hyz, if_neg hxy]
        simpa using hxylt
      · rw [if_neg hyz] at hbc
        have hyzlt : y < z := by simpa using hbc
        have hxz : x < z := lt_trans hxylt hyzlt
        rw [if_neg (ne_of_lt hxz)]
        simpa using hxz

/-- Two character lists are strictly ordered one way or equal. -/
theorem charListLt_trichotomy :
    ∀ (a b : List Char),
      charListLt a b = true ∨ a = b ∨ charListLt b a = true
  | [], [] => Or.inr (Or.inl rfl)
  | [], _ :: _ => Or.inl rfl
  | _ :: _, [] => Or.inr (Or.inr rfl)
  | x :: xs, y :: ys => by
    by_cases hxy : x = y
    · rcases charListLt_trichotomy xs ys with h | h | h
      · exact Or.inl (by unfold charListLt; rw [if_pos hxy]; exact h)
      · exact Or.inr (Or.inl (by rw [hxy, h]))
      · exact Or.inr (Or.inr (by unfold charListLt; rw [if_pos hxy.symm]; exact h))
    · rcases lt_trichotomy x y with h | h | h
      · exact Or.inl (by unfold charListLt; rw [if_neg hxy]; simpa using h)
      · exact absurd h hxy
      · exact Or.inr (Or.inr (by unfold charListLt; rw [if_neg (Ne.symm hxy)]; simpa using h))

/-- The non-strict string order is transitive. -/
theorem strLe_trans (a b c : String) (hab : strLe a b = true)
    (hbc : strLe b c = true) : strLe a c = true := by
  unfold strLe strLt at hab hbc ⊢
  rcases Bool.or_eq_true_iff.mp hab with h1 | h1
  · rcases Bool.or_eq_true_iff.mp hbc with h2 | h2
    · exact Bool.or_eq_true_iff.mpr (Or.inl (charListLt_trans _ _ _ h1 h2))
    · have : b = c := by simpa using h2
      rw [← this]
      exact Bool.or_eq_true_iff.mpr (Or.inl h1)
  · have : a = b := by simpa using h1
    rw [this]
    exact hbc

/-- The non-strict string order is total. -/
theorem strLe_total (a b : String) : strLe a b = true ∨ strLe b a = true := by
  unfold strLe strLt
  rcases charListLt_trichotomy a.toList b.toList with h | h | h
  · exact Or.inl (Bool.or_eq_true_iff.mpr (Or.inl h))
  · have hab : a = b := by
      cases a with
      | mk d1 =>
        cases b with
        | mk d2 => exact congrArg String.mk (by simpa [String.toList] using h)
    exact Or.inl (Bool.or_eq_true_iff.mpr (Or.inr (by simp [hab])))
  · exact Or.inr (Bool.or_eq_true_iff.mpr (Or.inl h))

/-- C5 counterexample: for the target set \x7b A, B \x7d of two co-named
stops and a running trip stopping at A then B, the claim demands one
arrival per matching stop-time (two in total), but the panel emits a
single arrival — `find` keeps only the first matching stop-time, so the
arrival at B is missing even though its stop-time matches and the
service runs. -/
theorem arrivals_union_counterexample :
    (buildArrivals ["A", "B"] "07:00:00" "20240103" 3
        [("A", { name := "Central", yomi := "", lat := 0, lng := 0, platform := "1" }),
         ("B", { name := "Central", yomi := "", lat := 0, lng := 0, platform := "2" })]
        [("R1", [("T1", { headsign := "h", service_id := "S1", office_id := "o",
                          via := "",
                          stops := [{ time := "08:00:00", stop_id := "A" },
                                    { time := "08:10:00", stop_id := "B" }] })])]
        [] [{ service_id := "S1", date := "20240103", exception_type := "1" }]).length = 1
    ∧ (buildArrivals ["A", "B"] "07:00:00" "20240103" 3
        [("A", { name := "Central", yomi := "", lat := 0, lng := 0, platform := "1" }),
         ("B", { name := "Central", yomi := "", lat := 0, lng := 0, platform := "2" })]
        [("R1", [("T1", { headsign := "h", service_id := "S1", office_id := "o",
                          via := "",
                          stops := [{ time := "08:00:00", stop_id := "A" },
                                    { time := "08:10:00", stop_id := "B" }] })])]
        [] [{ service_id := "S1", date := "20240103", exception_type := "1" }]).countP
        (fun a => decide (a.actual_stop_id = "B")) = 0
    ∧ (["A", "B"].contains "B"
        && isServiceRunningTodayTs "S1" "20240103" 3 []
             [{ service_id := "S1", date := "20240103", exception_type := "1" }]) = true := by
  decide

/-- C5 (amended): the arrival list contains exactly one Arrival per trip
whose service runs today and that has at least one stop-time whose stop
id is in the target set — built from the first such stop-time, carrying
time, route id, trip id, headsign, via, the matching stop's platform,
the matching stop id and the is_past flag — and the list is sorted by
time ascending. -/
theorem arrivals_first_match_characterization
    (targetIds : List String) (currentTime ymd : String) (wd : Nat)
    (stops : List (String × StopInfo))
    (timetables : List (String × List (String × TripInfo)))
    (calendar : List (String × CalendarEntry))
    (exceptions : List CalendarDateException)
    (r t : String) (trip : TripInfo) (trips : List (String × TripInfo))
    (hnodupR : (timetables.map Prod.fst).Nodup)
    (hnodupT : ∀ p ∈ timetables, (p.2.map Prod.fst).Nodup)
    (hr : (r, trips) ∈ timetables) (ht : (t, trip) ∈ trips) :
    ((buildArrivals targetIds currentTime ymd wd stops timetables calendar
        exceptions).countP (fun a => decide (a.trip_id = t ∧ a.route_id = r)) =
      if isServiceRunningTodayTs trip.service_id ymd wd calendar exceptions = true ∧
         (trip.stops.find? (fun s => targetIds.contains s.stop_id)).isSome = true
      then 1 else 0)
    ∧ (∀ st, trip.stops.find? (fun s => targetIds.contains s.stop_id) = some st →
        isServiceRunningTodayTs trip.service_id ymd wd calendar exceptions = true →
        mkArrival r t trip st stops currentTime ∈
          buildArrivals targetIds currentTime ymd wd stops timetables calendar
            exceptions)
    ∧ List.Pairwise (fun a b : Arrival => strLe a.time b.time = true)
        (buildArrivals targetIds currentTime ymd wd stops timetables calendar
          exceptions) := by
  have hfields : ∀ rid (tt : String × TripInfo) a,
      (if ¬ isServiceRunningTodayTs tt.2.service_id ymd wd calendar exceptions
       then none
       else
        match tt.2.stops.find? (fun s => targetIds.contains s.stop_id) with
        | none => none
        | some st => some (mkArrival rid tt.1 tt.2 st stops currentTime)) = some a →
      a.trip_id = tt.1 ∧ a.route_id = rid := by
    intro rid tt a hg
    split at hg
    · cases hg
    · cases hfind : tt.2.stops.find? (fun s => targetIds.contains s.stop_id) with
      | none => rw [hfind] at hg; cases hg
      | some st =>
        rw [hfind] at hg
        rw [← Option.some_inj.mp hg]
        exact ⟨rfl, rfl⟩
  refine ⟨?_, ?_, ?_⟩
  · unfold buildArrivals
    rw [(List.perm_insertionSort (fun a b : Arrival => strLe a.time b.time = true)
      _).countP_eq]
    unfold collectArrivals
    rw [countP_flatMap_by_key _ _ r trips timetables hnodupR hr ?keyz]
    case keyz =>
      intro x hx hxr a ha
      obtain ⟨tt, _, hg⟩ := List.mem_filterMap.mp ha
      have := hfields x.1 tt a hg
      simp [this.2, hxr]
    rw [countP_filterMap_by_key _ _ t trip trips (hnodupT (r, trips) hr) ht
      (fun y hy hyt a ha => by
        have := hfields r y a ha
        simp [this.1, hyt])
      (fun a ha => by
        have := hfields r (t, trip) a ha
        simp [this.1, this.2])]
    by_cases hrun : isServiceRunningTodayTs trip.service_id ymd wd calendar
        exceptions = true
    · cases hfind : trip.stops.find? (fun s => targetIds.contains s.stop_id) with
      | none => simp [hrun, hfind]
      | some st => simp [hrun, hfind]
    · simp [hrun]
  · intro st hfind hrun
    unfold buildArrivals
    rw [List.mem_insertionSort]
    exact (mem_collectArrivals_iff targetIds currentTime ymd wd stops timetables
      calendar exceptions _).mpr ⟨r, trips, t, trip, st, hr, ht, hrun, hfind, rfl⟩
  · unfold buildArrivals
    exact @List.sorted_insertionSort Arrival
      (fun a b : Arrival => strLe a.time b.time = true) _
      ⟨fun a b => strLe_total a.time b.time⟩
      ⟨fun a b c => strLe_trans a.time b.time c.time⟩ _

/-- Witness for C5 (amended): a two-stop target set; the single running
trip contributes exactly one arrival. -/
theorem arrivals_first_match_witness :
    (buildArrivals ["A", "B"] "07:00:00" "20240103" 3
        [("A", { name := "Central", yomi := "", lat := 0, lng := 0, platform := "1" }),
         ("B", { name := "Central", yomi := "", lat := 0, lng := 0, platform := "2" })]
        [("R1", [("T1", { headsign := "h", service_id := "S1", office_id := "o",
                          via := "",
                          stops := [{ time := "08:00:00", stop_id := "A" },
                                    { time := "08:10:00", stop_id := "B" }] })])]
        [] [{ service_id := "S1", date := "20240103", exception_type := "1" }]).countP
        (fun a => decide (a.trip_id = "T1" ∧ a.route_id = "R1")) =
      if isServiceRunningTodayTs "S1" "20240103" 3 []
           [{ service_id := "S1", date := "20240103", exception_type := "1" }] = true ∧
         (([{ time := "08:00:00", stop_id := "A" },
            { time := "08:10:00", stop_id := "B" }] : List TripStop).find?
           (fun s => (["A", "B"] : List String).contains s.stop_id)).isSome = true
      then 1 else 0 :=
  (arrivals_first_match_characterization ["A", "B"] "07:00:00" "20240103" 3
      [("A", { name := "Central", yomi := "", lat := 0, lng := 0, platform := "1" }),
       ("B", { name := "Central", yomi := "", lat := 0, lng := 0, platform := "2" })]
      [("R1", [("T1", { headsign := "h", service_id := "S1", office_id := "o",
                        via := "",
                        stops := [{ time := "08:00:00", stop_id := "A" },
                                  { time := "08:10:00", stop_id := "B" }] })])]
      [] [{ service_id := "S1", date := "20240103", exception_type := "1" }]
      "R1" "T1"
      { headsign := "h", service_id := "S1", office_id := "o", via := "",
        stops := [{ time := "08:00:00", stop_id := "A" },
                  { time := "08:10:00", stop_id := "B" }] }
      [("T1", { headsign := "h", service_id := "S1", office_id := "o", via := "",
                stops := [{ time := "08:00:00", stop_id := "A" },
                          { time := "08:10:00", stop_id := "B" }] })]
      (by decide) (by decide) (by decide) (by decide)).1

/-! ## C8: the TypeScript and Go copies -/

/-- C8 counterexample: on the malformed stop time "0" the TypeScript
parser yields NaN — so no interval ever matches and the client returns
null — while the Go parser yields 0 seconds and the server returns the
first coordinate; the two copies disagree on a shared input. -/
theorem ts_go_divergence_counterexample :
    calculateBusPos [{ time := "0", stop_id := "A" },
                     { time := "10:00:00", stop_id := "B" }] 100
        [("A|B", { coordinates := [(0, 0), (1, 1)], stop_indices := [0, 1] })] ≠
      calculateBusPosition
        { headsign := "h", service_id := "s", office_id := "o", via := "",
          stops := [{ time := "0", stop_id := "A" },
                    { time := "10:00:00", stop_id := "B" }] } 100
        (patternKeyOf [{ time := "0", stop_id := "A" },
                       { time := "10:00:00", stop_id := "B" }])
        [("A|B", { coordinates := [(0, 0), (1, 1)], stop_indices := [0, 1] })] := by
  decide

/-- A digit-only (or empty) field parses identically in both languages. -/
theorem jsNumber_digits (p : String) (h : p.toList.all Char.isDigit = true) :
    jsNumber p = some (atoiGo p) := by
  by_cases hp : p = ""
  · subst hp
    decide
  · unfold jsNumber atoiGo
    rw [if_neg hp]
    unfold digitsToNat?
    rw [if_pos ⟨hp, h⟩]
    rfl

/-- On well-formed time strings the TypeScript parser computes exactly
the Go parser's value. -/
theorem timeToSecTs_wellFormed (s : String) (h : wellFormedTime s) :
    timeToSecTs s = some (timeToSecGo s) := by
  by_cases hs : s = ""
  · subst hs
    decide
  · rcases h with h | ⟨hlen, hdig⟩
    · exact absurd h hs
    · unfold timeToSecTs timeToSecGo
      rw [if_neg hs]
      cases hsp : splitOnChar ':' s with
      | nil => rw [hsp] at hlen; simp at hlen
      | cons p0 rest0 =>
        cases rest0 with
        | nil => rw [hsp] at hlen; simp at hlen
        | cons p1 rest =>
          rw [hsp] at hdig
          have hd0 : p0.toList.all Char.isDigit = true := by
            apply hdig
            simp [List.take]
          have hd1 : p1.toList.all Char.isDigit = true := by
            apply hdig
            simp [List.take]
          rw [if_neg (by simp)]
          dsimp only [List.getD, List.get?, Option.getD]
          cases rest with
          | nil =>
            rw [jsNumber_digits p0 hd0, jsNumber_digits p1 hd1]
            simp
          | cons p2 rest2 =>
            have hd2 : p2.toList.all Char.isDigit = true := by
              apply hdig
              simp [List.take]
            simp only [List.get?_cons_zero]
            rw [jsNumber_digits p0 hd0, jsNumber_digits p1 hd1,
              jsNumber_digits p2 hd2]
            rw [if_pos (by simp)]

/-- The TypeScript interval loop yields nothing when the shape has fewer
than two stop indices. -/
theorem busLoopTs_short (nowSec : Int) (coords : List (Rat × Rat)) :
    ∀ (stops : List TripStop) (idxs : List Int), idxs.length < 2 →
      busLoopTs nowSec coords stops idxs = none
  | [], _, _ => rfl
  | [_], _, _ => rfl
  | x :: y :: rest, idxs, hlen => by
    unfold busLoopTs
    have hrec := busLoopTs_short nowSec coords (y :: rest) idxs.tail
      (by cases idxs with
        | nil => simp
        | cons c cs => simp only [List.tail_cons]; simp at hlen; omega)
    cases timeToSecTs x.time with
    | none => exact hrec
    | some s1 =>
      cases timeToSecTs y.time with
      | none => exact hrec
      | some s2 =>
        dsimp only
        by_cases h : s1 ≤ nowSec ∧ nowSec < s2
        · rw [if_pos h]
          match idxs, hlen with
          | [], _ => rfl
          | [a], _ => rfl
        · rw [if_neg h]
          exact hrec

/-- The TypeScript interval loop yields nothing on an empty coordinate
array: the clamp makes the read index negative, so the array read is
`undefined`. -/
theorem busLoopTs_nilCoords (nowSec : Int) :
    ∀ (stops : List TripStop) (idxs : List Int),
      busLoopTs nowSec [] stops idxs = none
  | [], _ => rfl
  | [_], _ => rfl
  | x :: y :: rest, idxs => by
    unfold busLoopTs
    have hrec := busLoopTs_nilCoords nowSec (y :: rest) idxs.tail
    cases timeToSecTs x.time with
    | none => exact hrec
    | some s1 =>
      cases timeToSecTs y.time with
      | none => exact hrec
      | some s2 =>
        dsimp only
        by_cases h : s1 ≤ nowSec ∧ nowSec < s2
        · rw [if_pos h]
          cases idxs with
          | nil => rfl
          | cons a rest0 =>
            cases rest0 with
            | nil => rfl
            | cons b rest1 =>
              dsimp only
              unfold listIdx
              rw [if_neg ?_]
              have hm := min_le_right
                (floorTarget a b (nowSec - s1) (s2 - s1))
                ((([] : List (Rat × Rat)).length : Int) - 1)
              simp only [List.length_nil] at hm ⊢
              omega
        · rw [if_neg h]
          exact hrec

/-- With well-formed stop times the two interval loops coincide. -/
theorem busLoopTs_eq_busLoopGo (nowSec : Int) (coords : List (Rat × Rat)) :
    ∀ (stops : List TripStop) (idxs : List Int),
      (∀ st ∈ stops, wellFormedTime st.time) →
      busLoopTs nowSec coords stops idxs = busLoopGo nowSec coords stops idxs
  | [], _, _ => rfl
  | [_], _, _ => rfl
  | x :: y :: rest, idxs, hwf => by
    unfold busLoopTs busLoopGo
    rw [timeToSecTs_wellFormed x.time (hwf x (by simp)),
      timeToSecTs_wellFormed y.time (hwf y (by simp))]
    dsimp only
    by_cases h : timeToSecGo x.time ≤ nowSec ∧ nowSec < timeToSecGo y.time
    · rw [if_pos h, if_pos h]
      cases idxs with
      | nil => rfl
      | cons a rest0 =>
        cases rest0 with
        | nil => rfl
        | cons b rest1 =>
          dsimp only
          rw [clamp_eq_min]
    · rw [if_neg h, if_neg h]
      exact busLoopTs_eq_busLoopGo nowSec coords (y :: rest) idxs.tail
        (fun st hst => hwf st (List.mem_cons_of_mem x hst))

/-- On a valid date both fallback parsers compute the same day number. -/
theorem tsDateDays_valid (s : String) (h : validYmd s) :
    tsDateDays s = some (ymdDayNumber s) := by
  obtain ⟨⟨hlen, hdig, _⟩, hyear⟩ := h
  have halldig : ∀ l : List Char, (∀ c ∈ l, c ∈ s.toList) →
      (l.asString.toList.all Char.isDigit = true) := by
    intro l hl
    have : l.asString.toList = l := by
      simp [List.asString, String.toList]
    rw [this]
    rw [List.all_eq_true] at hdig ⊢
    intro c hc
    exact hdig c (hl c hc)
  have h04 : jsNumber (sliceJs s 0 4) = some (atoiGo (sliceJs s 0 4)) := by
    apply jsNumber_digits
    apply halldig
    intro c hc
    exact List.mem_of_mem_drop (List.mem_of_mem_take hc)
  have h46 : jsNumber (sliceJs s 4 6) = some (atoiGo (sliceJs s 4 6)) := by
    apply jsNumber_digits
    apply halldig
    intro c hc
    exact List.mem_of_mem_drop (List.mem_of_mem_take hc)
  have h68 : jsNumber (sliceJs s 6 8) = some (atoiGo (sliceJs s 6 8)) := by
    apply jsNumber_digits
    apply halldig
    intro c hc
    exact List.mem_of_mem_drop (List.mem_of_mem_take hc)
  unfold tsDateDays
  rw [h04, h46, h68]
  have he0 : atoiGo (sliceJs s 0 4) = (ymdFields s).1 := by
    unfold sliceJs ymdFields
    simp [List.drop_zero]
  have he4 : atoiGo (sliceJs s 4 6) = (ymdFields s).2.1 := by
    unfold sliceJs ymdFields
    rfl
  have he6 : atoiGo (sliceJs s 6 8) = (ymdFields s).2.2 := by
    unfold sliceJs ymdFields
    rfl
  rw [he0, he4, he6]
  dsimp only
  rw [if_neg (by omega)]
  rfl

/-- On valid dates the two resolvers agree everywhere. -/
theorem isServiceRunningTs_eq_Go (sid ymd : String) (wd : Nat)
    (calendar : List (String × CalendarEntry))
    (exceptions : List CalendarDateException)
    (hval : ∀ p ∈ calendar, validYmd p.2.start ∧ validYmd p.2.endd) :
    isServiceRunningTodayTs sid ymd wd calendar exceptions =
      isServiceRunningTodayGo sid ymd wd calendar exceptions := by
  unfold isServiceRunningTodayTs isServiceRunningTodayGo
  cases exceptions.find? (fun e => e.date = ymd ∧ e.service_id = sid) with
  | some e => rfl
  | none =>
    cases hlk : lookupA calendar sid with
    | none => rfl
    | some cal =>
      have hmem : ∃ k, (k, cal) ∈ calendar := by
        unfold lookupA at hlk
        obtain ⟨p, hp, hps⟩ := Option.map_eq_some'.mp hlk
        obtain rfl : p.2 = cal := hps
        exact ⟨p.1, List.mem_of_find?_eq_some hp⟩
      obtain ⟨k, hk⟩ := hmem
      have hv := hval (k, cal) hk
      have hgo1 : goDateDays cal.start = ymdDayNumber cal.start := by
        unfold goDateDays
        rw [if_pos hv.1.1]
      have hgo2 : goDateDays cal.endd = ymdDayNumber cal.endd := by
        unfold goDateDays
        rw [if_pos hv.2.1]
      have hts1 := tsDateDays_valid cal.start hv.1
      have hts2 := tsDateDays_valid cal.endd hv.2
      dsimp only
      by_cases hin : strLe cal.start ymd = true ∧ strLe ymd cal.endd = true
      · rw [if_pos (by simpa using hin)]
        by_cases hidx : gtfsDayIdx wd < cal.days.length
        · rw [if_pos ⟨by simpa using hin, hidx⟩]
        · rw [if_neg (by tauto), hgo1, hgo2,
            List.getD_eq_default _ _ (by omega), if_neg (by tauto)]
          simp
      · rw [if_neg (by simpa using hin), if_neg (by tauto)]
        rw [hts1, hts2, hgo1, hgo2]
        dsimp only
        by_cases hdur : 20 ≤ ymdDayNumber cal.endd - ymdDayNumber cal.start
        · by_cases hidx : gtfsDayIdx wd < cal.days.length
          · rw [if_pos hdur, if_pos ⟨hdur, hidx⟩]
          · rw [if_pos hdur, if_neg (by tauto),
              List.getD_eq_default _ _ (by omega)]
            simp
        · rw [if_neg hdur, if_neg (by tauto)]

/-- C8 (amended): the TypeScript and Go copies return equal results on
every shared input whose stop-time strings are well formed (the
interpolators) and whose calendar date bounds are valid 8-digit dates
with 4-digit year at least 0100 (the resolvers); the unrestricted claim
fails, see the counterexample. -/
theorem ts_go_equivalence_wellformed
    (trip : TripInfo) (nowSec : Int) (shapes : List (String × ShapeData))
    (sid ymd : String) (wd : Nat)
    (calendar : List (String × CalendarEntry))
    (exceptions : List CalendarDateException) (s : String)
    (hwf : ∀ st ∈ trip.stops, wellFormedTime st.time)
    (hval : ∀ p ∈ calendar, validYmd p.2.start ∧ validYmd p.2.endd)
    (hs : wellFormedTime s) :
    timeToSecTs s = some (timeToSecGo s)
    ∧ calculateBusPos trip.stops nowSec shapes =
        calculateBusPosition trip nowSec (patternKeyOf trip.stops) shapes
    ∧ isServiceRunningTodayTs sid ymd wd calendar exceptions =
        isServiceRunningTodayGo sid ymd wd calendar exceptions := by
  refine ⟨timeToSecTs_wellFormed s hs, ?_, isServiceRunningTs_eq_Go sid ymd wd
    calendar exceptions hval⟩
  unfold calculateBusPos calculateBusPosition
  cases lookupA shapes (patternKeyOf trip.stops) with
  | none => rfl
  | some shape =>
    dsimp only
    by_cases he : shape.coordinates.length = 0 ∨ shape.stop_indices.length = 0
    · rw [if_pos he]
      rcases he with he | he
      · rw [List.length_eq_zero.mp he]
        exact busLoopTs_nilCoords nowSec trip.stops shape.stop_indices
      · rw [List.length_eq_zero.mp he]
        exact busLoopTs_short nowSec shape.coordinates trip.stops [] (by simp)
    · rw [if_neg he]
      exact busLoopTs_eq_busLoopGo nowSec shape.coordinates trip.stops
        shape.stop_indices hwf

/-- Witness for C8 (amended): well-formed times and valid dates, with
the three conclusions at one concrete shared input. -/
theorem ts_go_equivalence_wellformed_witness :
    timeToSecTs "08:05:00" = some (timeToSecGo "08:05:00")
    ∧ calculateBusPos [{ time := "08:00:00", stop_id := "A" },
                       { time := "08:10:00", stop_id := "B" }] 29100
        [("A|B", { coordinates := [(0, 0), (1, 1)], stop_indices := [0, 1] })] =
      calculateBusPosition
        { headsign := "h", service_id := "s", office_id := "o", via := "",
          stops := [{ time := "08:00:00", stop_id := "A" },
                    { time := "08:10:00", stop_id := "B" }] } 29100
        (patternKeyOf [{ time := "08:00:00", stop_id := "A" },
                       { time := "08:10:00", stop_id := "B" }])
        [("A|B", { coordinates := [(0, 0), (1, 1)], stop_indices := [0, 1] })]
    ∧ isServiceRunningTodayTs "S1" "20240103" 3
        [("S1", { days := ["1", "1", "1", "1", "1", "0", "0"],
                  start := "20240101", endd := "20240601" })] [] =
      isServiceRunningTodayGo "S1" "20240103" 3
        [("S1", { days := ["1", "1", "1", "1", "1", "0", "0"],
                  start := "20240101", endd := "20240601" })] [] :=
  ts_go_equivalence_wellformed
    { headsign := "h", service_id := "s", office_id := "o", via := "",
      stops := [{ time := "08:00:00", stop_id := "A" },
                { time := "08:10:00", stop_id := "B" }] } 29100
    [("A|B", { coordinates := [(0, 0), (1, 1)], stop_indices := [0, 1] })]
    "S1" "20240103" 3
    [("S1", { days := ["1", "1", "1", "1", "1", "0", "0"],
              start := "20240101", endd := "20240601" })] []
    "08:05:00" (by decide) (by decide) (by decide)

end SendaiBusMap
